import Mathlib

/-!
# UW-SLAM: frame window, keyframes and set-up checks

A shallow embedding of `src/System.cpp` and of the per-frame loop of
`src/main_uw_slam.cpp`, followed by the properties proved about it.

Conventions of the embedding.

* Every `Frame` the program creates lives on the free store.  The free store is
  the list `System.heap`; a `Frame*` is an index into it.  A pointer
  member that the constructor leaves unset is `none`.
* `new Frame()` appends a cell to the heap.  An explicit destructor call runs
  the destructor body on the cell and ends the lifetime of the object
  (`Obj.alive := false`); the storage is not released, exactly as in the source,
  which never calls `delete`.
* A call either returns (`Outcome.ok`), ends the process through `exit`
  (`Outcome.exit`, with the state at that moment), is left by an uncaught
  OpenCV exception (`Outcome.threw`) or has undefined behaviour
  (`Outcome.undefined`: out-of-range `operator[]`, use of an unset pointer or
  of a destroyed object, signed overflow).
* `int` is a 32-bit signed integer: values are `Int`, `x++` is undefined at
  `INT_MAX`.  The comparison of the `int` loop variable with
  `images_list_.size()` converts the `int` to a 64-bit unsigned value.
* An image (`cv::Mat`) is represented by its dimensions.  Pixel values,
  intrinsics and poses are floating point data that no modelled branch reads.
-/

namespace uw

/-! ## Outcomes of a call -/

/-- Largest value of the 32-bit `int`. -/
def INT_MAX : Int := 2147483647

/-- The statement `x++` on an `int`: `none` stands for signed overflow. -/
def incrInt (x : Int) : Option Int :=
  if x < INT_MAX then some (x + 1) else none

/-- Conversion of an `int` to `size_t` (64 bits), as done by the usual
arithmetic conversions in `i < images_list_.size()`. -/
def toSizeT (i : Int) : Nat := (i % 18446744073709551616).toNat

/-- How a call of a `System` member function ends. -/
inductive Outcome (σ : Type) where
  /-- The call returned to its caller in state `s`. -/
  | ok (s : σ)
  /-- The call ended the process with `exit(code)`; `s` is the state then. -/
  | exit (code : Int) (s : σ)
  /-- An exception left the call and nothing catches it. -/
  | threw
  /-- The call has undefined behaviour. -/
  | undefined
deriving DecidableEq, Repr

/-- Sequencing: the continuation runs only when the call returned. -/
def Outcome.bind {σ : Type} (o : Outcome σ) (k : σ → Outcome σ) : Outcome σ :=
  match o with
  | .ok s => k s
  | .exit c s => .exit c s
  | .threw => .threw
  | .undefined => .undefined

/-- Element access `v[i]` with an `int` index on a `std::vector`: `none` when
the index is outside the vector (undefined behaviour in the source). -/
def vecAt {α : Type} (v : List α) (i : Int) : Option α :=
  if 0 ≤ i then v[i.toNat]? else none

/-! ## Images and the OpenCV calls of `AddFrame` -/

/-- An image matrix (`cv::Mat`), represented by its dimensions.  A
default-constructed matrix has no columns and no rows. -/
structure Mat where
  /-- Width. -/
  cols : Nat
  /-- Height. -/
  rows : Nat
deriving DecidableEq, Repr

/-- The test `Mat::empty()`. -/
def Mat.empty (m : Mat) : Bool := m.cols == 0 || m.rows == 0

/-- The value `cvRound(n * 0.5)` for a non-negative `int` `n`: the product is
exact in double precision and is rounded to the nearest integer, a tie going to
the even neighbour. -/
def cvRoundHalf (n : Nat) : Nat :=
  if n % 2 = 0 then n / 2 else if (n / 2) % 2 = 0 then n / 2 else n / 2 + 1

/-- The call `resize(src, dst, Size(), 0.5, 0.5)`: the destination size is
`(cvRound(src.cols * 0.5), cvRound(src.rows * 0.5))`; OpenCV throws when the
source or that size is empty (`none`). -/
def resize (src : Mat) : Option Mat :=
  if src.empty then none
  else
    let dst : Mat := { cols := cvRoundHalf src.cols, rows := cvRoundHalf src.rows }
    if dst.empty then none else some dst

/-! ## Frames -/

/-- A rigid transformation.  The only value the modelled code ever stores is the
default-constructed `SE3()`. -/
inductive SE3 where
  /-- The value of `SE3()`. -/
  | identity
deriving DecidableEq, Repr

/-- Compile-time options (`Options.h`, which is not among the sources): the
number of pyramid levels is a parameter of the development. -/
structure Options where
  /-- The constant `PYRAMID_LEVELS`. -/
  PYRAMID_LEVELS : Nat
deriving DecidableEq, Repr

/-- Modelled from the spec: the declaration of `Frame` (`System.h`) is not among
the sources.  The members are those `System.cpp` uses; `image_`, the gradient
fields and the candidate fields are vectors with one matrix per pyramid level
(spec, section 3, Frame). -/
structure Frame where
  /-- Identity of the frame. -/
  idFrame_ : Int
  /-- Pyramid of images, level 0 first. -/
  image_ : List Mat
  /-- Horizontal gradient per level. -/
  gradientX_ : List Mat
  /-- Vertical gradient per level. -/
  gradientY_ : List Mat
  /-- Gradient magnitude per level. -/
  gradient_ : List Mat
  /-- Candidate points per level. -/
  candidatePoints_ : List Mat
  /-- Candidate depths per level. -/
  candidatePointsDepth_ : List Mat
  /-- Points of the frame per level. -/
  framePoints_ : List (List Nat)
  /-- Map data of the frame. -/
  map_ : List Mat
  /-- Pose of the frame. -/
  rigid_transformation_ : SE3
  /-- Set once the gradients have been computed. -/
  obtained_gradients_ : Bool
  /-- Set once the candidate points have been selected. -/
  obtained_candidatePoints_ : Bool
  /-- Set when the frame has been promoted to keyframe. -/
  isKeyFrame_ : Bool
deriving DecidableEq, Repr

/-- The constructor `Frame::Frame()`.  The vectors get their declared size of
`PYRAMID_LEVELS` default matrices; the body sets the pose, the id and the three
flags. -/
def Frame.new (opts : Options) : Frame :=
  { idFrame_ := 0
    image_ := List.replicate opts.PYRAMID_LEVELS { cols := 0, rows := 0 }
    gradientX_ := List.replicate opts.PYRAMID_LEVELS { cols := 0, rows := 0 }
    gradientY_ := List.replicate opts.PYRAMID_LEVELS { cols := 0, rows := 0 }
    gradient_ := List.replicate opts.PYRAMID_LEVELS { cols := 0, rows := 0 }
    candidatePoints_ := List.replicate opts.PYRAMID_LEVELS { cols := 0, rows := 0 }
    candidatePointsDepth_ := List.replicate opts.PYRAMID_LEVELS { cols := 0, rows := 0 }
    framePoints_ := List.replicate opts.PYRAMID_LEVELS []
    map_ := []
    rigid_transformation_ := SE3.identity
    obtained_gradients_ := false
    obtained_candidatePoints_ := false
    isKeyFrame_ := false }

/-- The body of the destructor `Frame::~Frame()`.  The range-for loop clears a
copy of each element of `framePoints_`, so that member keeps its value; the
seven `clear()` calls empty the other vectors.  Scalar members are untouched. -/
def Frame.destructor (f : Frame) : Frame :=
  { f with
    image_ := []
    gradientX_ := []
    gradientY_ := []
    gradient_ := []
    candidatePoints_ := []
    candidatePointsDepth_ := []
    map_ := [] }

/-- A cell of the free store: the object and whether its lifetime is running.
The address of a cell is its index in the free store, a natural number. -/
structure Obj where
  /-- The stored frame. -/
  val : Frame
  /-- False once the destructor has been called on the object. -/
  alive : Bool
deriving DecidableEq, Repr

/-! ## The collaborators of `System` -/

/-- Modelled from the spec: the class `CameraModel` (`CameraModel.h`) is not
among the sources.  The record holds what its getters return once the
calibration file has been read: input and output resolution, the two
rectification maps and the validity flag (spec, section 6). -/
structure CameraModel where
  /-- Value of `GetInputWidth()`. -/
  input_width : Int
  /-- Value of `GetInputHeight()`. -/
  input_height : Int
  /-- Value of `GetOutputWidth()`. -/
  output_width : Int
  /-- Value of `GetOutputHeight()`. -/
  output_height : Int
  /-- Value of `GetMap1()`. -/
  map1 : Mat
  /-- Value of `GetMap2()`. -/
  map2 : Mat
  /-- Value of `IsValid()`. -/
  valid : Bool
deriving DecidableEq, Repr

/-- The world outside the process: files and the library calls whose results
depend on pixel data. -/
structure World where
  /-- The camera model that `GetCameraModel` reads from a calibration file. -/
  GetCameraModel : String → CameraModel
  /-- The names `readdir` reports for a directory, `none` when `opendir`
  fails. -/
  readdir : String → Option (List String)
  /-- The matrix `imread` returns for a file (empty when it cannot be read). -/
  imread : String → Mat
  /-- The call `remap(src, dst, map1, map2, INTER_LINEAR)`, source first, then
  `map1`: the destination, or `none` when OpenCV throws. -/
  remap : Mat → Mat → Option Mat
  /-- The matrix of candidate points selected at one pyramid level. -/
  select : Mat → Mat

/-- Modelled from the spec: the class `Tracker` (`Tracker.cpp`) is not among the
sources.  The record keeps the arguments of `InitializePyramid` and, as a
history, the frames on which gradient extraction and candidate selection have
been invoked. -/
structure Tracker where
  /-- Width passed to `InitializePyramid`. -/
  w : Int
  /-- Height passed to `InitializePyramid`. -/
  h : Int
  /-- The frames `ApplyGradient` was called on, oldest call first. -/
  gradient_calls : List Nat
  /-- The frames `ObtainAllPoints` was called on, oldest call first. -/
  points_calls : List Nat
deriving DecidableEq, Repr

/-- Modelled from the spec: the class `Visualizer` is not among the sources.
The record keeps the constructor arguments. -/
structure Visualizer where
  /-- First constructor argument. -/
  start_index : Int
  /-- Second constructor argument. -/
  num_images : Nat
  /-- Third constructor argument. -/
  ground_truth_path : String
deriving DecidableEq, Repr

/-! ## The system state -/

/-- The members of `System` that `System.cpp` and `main` use, together with the
free store.  The intrinsics (`K_`, `fx_`, ...) are floating point values that no
branch reads and are left out. -/
structure System where
  /-- The free store of `Frame` objects. -/
  heap : List Obj
  /-- Index of the first image to process. -/
  start_index_ : Int
  /-- Set by `InitializeSystem`. -/
  initialized_ : Bool
  /-- Whether images are rectified on ingestion. -/
  rectification_valid_ : Bool
  /-- Number of frames ingested. -/
  num_frames_ : Int
  /-- Number of keyframes. -/
  num_keyframes_ : Int
  /-- Output width. -/
  w_ : Int
  /-- Output height. -/
  h_ : Int
  /-- Input width member. -/
  w_input_ : Int
  /-- Input height member. -/
  h_input_ : Int
  /-- First rectification map. -/
  map1_ : Mat
  /-- Second rectification map. -/
  map2_ : Mat
  /-- The dataset, one path per image. -/
  images_list_ : List String
  /-- Path of the ground truth. -/
  ground_truth_path_ : String
  /-- The window of recent frames. -/
  frames_ : List Nat
  /-- The keyframes. -/
  keyframes_ : List Nat
  /-- The frame ingested last. -/
  current_frame_ : Option Nat
  /-- The frame ingested before the current one. -/
  previous_frame_ : Option Nat
  /-- The keyframe promoted last. -/
  current_keyframe_ : Option Nat
  /-- The camera model. -/
  camera_model_ : Option CameraModel
  /-- The tracker. -/
  tracker_ : Option Tracker
  /-- The visualizer. -/
  visualizer_ : Option Visualizer
deriving DecidableEq, Repr

/-- Values found in the members that the constructor of `System` does not
set. -/
structure Indeterminate where
  /-- Initial content of `w_`. -/
  w_ : Int
  /-- Initial content of `h_`. -/
  h_ : Int
  /-- Initial content of `w_input_`. -/
  w_input_ : Int
  /-- Initial content of `h_input_`. -/
  h_input_ : Int
deriving DecidableEq, Repr

/-- The constructor `System::System(argc, argv, start_index)`.  It sets
`start_index_`, the two flags and the two counters; the vectors and strings are
default-constructed; `w_`, `h_`, `w_input_` and `h_input_` keep whatever the
storage held and the pointer members are unset. -/
def System.new (start_index : Int) (junk : Indeterminate) : System :=
  { heap := []
    start_index_ := start_index
    initialized_ := false
    rectification_valid_ := false
    num_frames_ := 0
    num_keyframes_ := 0
    w_ := junk.w_
    h_ := junk.h_
    w_input_ := junk.w_input_
    h_input_ := junk.h_input_
    map1_ := { cols := 0, rows := 0 }
    map2_ := { cols := 0, rows := 0 }
    images_list_ := []
    ground_truth_path_ := ""
    frames_ := []
    keyframes_ := []
    current_frame_ := none
    previous_frame_ := none
    current_keyframe_ := none
    camera_model_ := none
    tracker_ := none
    visualizer_ := none }

/-- Reading through a `Frame*`: the frame, or `none` when the pointer is unset,
does not point to a frame or points to a destroyed one. -/
def System.deref (s : System) (p : Option Nat) : Option Frame :=
  match p with
  | none => none
  | some a =>
    match s.heap[a]? with
    | some o => if o.alive then some o.val else none
    | none => none

/-- Writing through a `Frame*` known to be valid: the frame at `a` is replaced. -/
def System.store (s : System) (a : Nat) (f : Frame) : System :=
  { s with heap := s.heap.set a { val := f, alive := true } }

/-! ## The tracker calls made by `System::Tracking` -/

/-- Modelled from the spec: `Tracker::ApplyGradient(Frame*)` (`Tracker.cpp`) is
not among the sources.  It fills the three gradient fields, one matrix of the
size of the image per level, and sets `obtained_gradients_` (spec, section 4.2).
The call is recorded in the history of the tracker. -/
def Tracker.ApplyGradient (s : System) (p : Option Nat) : Outcome System :=
  match s.tracker_, p, s.deref p with
  | some t, some a, some f =>
    .ok { s.store a { f with
                        gradientX_ := f.image_
                        gradientY_ := f.image_
                        gradient_ := f.image_
                        obtained_gradients_ := true } with
          tracker_ := some { t with gradient_calls := t.gradient_calls ++ [a] } }
  | _, _, _ => .undefined

/-- Modelled from the spec: `Tracker::ObtainAllPoints(Frame*)` (`Tracker.cpp`)
is not among the sources.  It stores the candidate points of every level and
sets `obtained_candidatePoints_` (spec, section 4.3).  The call is recorded in
the history of the tracker. -/
def Tracker.ObtainAllPoints (world : World) (s : System) (p : Option Nat) :
    Outcome System :=
  match s.tracker_, p, s.deref p with
  | some t, some a, some f =>
    .ok { s.store a { f with
                        candidatePoints_ := f.gradient_.map world.select
                        candidatePointsDepth_ := f.gradient_.map world.select
                        obtained_candidatePoints_ := true } with
          tracker_ := some { t with points_calls := t.points_calls ++ [a] } }
  | _, _, _ => .undefined

/-! ## The member functions of `System` -/

/-- The function `System::Calibration(calibration_path)`: the camera model is
created and read, then `w_` and `h_` are tested as they stand in the object. -/
def Calibration (world : World) (calibration_path : String) (s : System) :
    Outcome System :=
  let s1 := { s with camera_model_ := some (world.GetCameraModel calibration_path) }
  if s1.w_.tmod 16 != 0 || s1.h_.tmod 16 != 0 then .exit 0 s1 else .ok s1

/-- The function `System::InitializeSystem()`.  Note that the source stores the
input height in `w_input_` and the input width in `h_input_`. -/
def InitializeSystem (s : System) : Outcome System :=
  match s.camera_model_ with
  | none => .undefined
  | some cm =>
    .ok { s with
          w_input_ := cm.input_height
          h_input_ := cm.input_width
          w_ := cm.output_width
          h_ := cm.output_height
          map1_ := cm.map1
          map2_ := cm.map2
          rectification_valid_ := cm.valid
          tracker_ := some { w := cm.output_width, h := cm.output_height,
                             gradient_calls := [], points_calls := [] }
          visualizer_ := some { start_index := s.start_index_,
                                num_images := s.images_list_.length,
                                ground_truth_path := s.ground_truth_path_ }
          initialized_ := true }

/-- The function `System::Tracking()`. -/
def Tracking (world : World) (s : System) : Outcome System :=
  match s.deref s.previous_frame_ with
  | none => .undefined
  | some prev =>
    (if !prev.obtained_gradients_ then Tracker.ApplyGradient s s.previous_frame_
     else .ok s).bind fun s1 =>
    match s1.deref s1.previous_frame_ with
    | none => .undefined
    | some prev1 =>
      (if !prev1.obtained_candidatePoints_ then
         Tracker.ObtainAllPoints world s1 s1.previous_frame_
       else .ok s1).bind fun s2 =>
      (Tracker.ApplyGradient s2 s2.current_frame_).bind fun s3 =>
      Tracker.ObtainAllPoints world s3 s3.current_frame_

/-- The loop `for (int i=1; i<PYRAMID_LEVELS; i++) resize(image_[i-1], image_[i], ...)`
of `AddFrame`: `n` iterations remain, `i` is the loop variable.  `none` when
`resize` throws. -/
def pyramidLoop : Nat → Nat → List Mat → Option (List Mat)
  | 0, _, image_ => some image_
  | n + 1, i, image_ =>
    match resize (image_.getD (i - 1) { cols := 0, rows := 0 }) with
    | none => none
    | some m => pyramidLoop n (i + 1) (image_.set i m)

/-- The statements of `AddFrame` that fill `image_` of the new frame, for the
image file `path`: `imread` into level 0, `remap` when the rectification is
valid, then the `resize` loop.  `none` when OpenCV throws. -/
def readPyramid (opts : Options) (world : World) (valid : Bool) (map1 : Mat)
    (path : String) : Option (List Mat) :=
  match (if valid then world.remap (world.imread path) map1
         else some (world.imread path)) with
  | none => none
  | some img0 =>
    pyramidLoop (opts.PYRAMID_LEVELS - 1) 1 ((Frame.new opts).image_.set 0 img0)

/-- The function `System::AddFrame(id)`.  Writing `image_[0]` is undefined when
the vector has no element. -/
def AddFrame (opts : Options) (world : World) (id : Int) (s : System) :
    Outcome System :=
  let a : Nat := s.heap.length
  let newFrame : Frame := { Frame.new opts with idFrame_ := id }
  match vecAt s.images_list_ id with
  | none => .undefined
  | some path =>
    if opts.PYRAMID_LEVELS = 0 then .undefined
    else
      match readPyramid opts world s.rectification_valid_ s.map1_ path with
      | none => .threw
      | some image_ =>
        match incrInt s.num_frames_ with
        | none => .undefined
        | some nf =>
          .ok { s with
                heap := s.heap ++ [{ val := { newFrame with image_ := image_ }, alive := true }]
                previous_frame_ := if s.num_frames_ == 0 then some a else s.current_frame_
                current_frame_ := some a
                frames_ := s.frames_ ++ [a]
                num_frames_ := nf }

/-- The function `System::AddKeyFrame(id)`.  The frame created by `new Frame()`
stays on the free store; the pointer to it is overwritten at once. -/
def AddKeyFrame (opts : Options) (id : Int) (s : System) : Outcome System :=
  match s.deref s.current_frame_ with
  | none => .undefined
  | some cur =>
    if id > cur.idFrame_ then .exit 0 s
    else
      let s1 : System := { s with heap := s.heap ++ [{ val := Frame.new opts, alive := true }] }
      match vecAt s1.frames_ (s1.num_frames_ - 1) with
      | none => .undefined
      | some newKeyFrame =>
        match s1.deref (some newKeyFrame) with
        | none => .undefined
        | some f =>
          match incrInt s1.num_keyframes_ with
          | none => .undefined
          | some nk =>
            .ok { s1.store newKeyFrame { f with isKeyFrame_ := true } with
                  current_keyframe_ := some newKeyFrame
                  num_keyframes_ := nk
                  keyframes_ := s1.keyframes_ ++ [newKeyFrame] }

/-- The function `System::AddListImages(path, ground_truth_path)`.  Erasing the
first two elements of a vector with fewer than two is undefined. -/
def AddListImages (world : World) (path ground_truth_path : String) (s : System) :
    Outcome System :=
  match world.readdir path with
  | none => .exit 0 s
  | some names =>
    let file_names := List.insertionSort (· ≤ ·) (names.map fun d_name => path ++ d_name)
    if file_names.length < 2 then .undefined
    else
      let file_names := file_names.drop 2
      if file_names.length < 15 then .exit 0 s
      else .ok { s with ground_truth_path_ := ground_truth_path, images_list_ := file_names }

/-- The function `System::FreeFrames()`: the destructor is called on the frame
`frames_[0]` points to, then the pointer is erased from the window. -/
def FreeFrames (s : System) : Outcome System :=
  match s.frames_ with
  | [] => .undefined
  | a :: rest =>
    match s.deref (some a) with
    | none => .undefined
    | some f =>
      .ok { s with heap := s.heap.set a { val := f.destructor, alive := false }, frames_ := rest }

/-- Modelled from the spec: `Visualizer::UpdateMessages(Frame*)` is not among
the sources.  Visualization is an external collaborator that consumes the frame
(spec, section 1); the call needs the visualizer and a valid frame and leaves
the system state as it is. -/
def UpdateMessages (s : System) : Outcome System :=
  match s.visualizer_, s.deref s.previous_frame_ with
  | some _, some _ => .ok s
  | _, _ => .undefined

/-! ## The per-frame loop of `main` -/

/-- A call of a member function made by the loop of `main`. -/
inductive Call where
  /-- The call `uwSystem->InitializeSystem()`. -/
  | InitializeSystem
  /-- The call `uwSystem->AddFrame(id)`. -/
  | AddFrame (id : Int)
  /-- The call `uwSystem->AddKeyFrame(id)`. -/
  | AddKeyFrame (id : Int)
  /-- The call `uwSystem->Tracking()`. -/
  | Tracking
  /-- The call `uwSystem->visualizer_->UpdateMessages(uwSystem->previous_frame_)`. -/
  | UpdateMessages
  /-- The call `uwSystem->FreeFrames()`. -/
  | FreeFrames
deriving DecidableEq, Repr

/-- Execution of one call. -/
def exec (opts : Options) (world : World) (c : Call) (s : System) : Outcome System :=
  match c with
  | .InitializeSystem => InitializeSystem s
  | .AddFrame id => AddFrame opts world id s
  | .AddKeyFrame id => AddKeyFrame opts id s
  | .Tracking => Tracking world s
  | .UpdateMessages => UpdateMessages s
  | .FreeFrames => FreeFrames s

/-- Execution of a sequence of calls, one after the other. -/
def runCalls (opts : Options) (world : World) : List Call → System → Outcome System
  | [], s => .ok s
  | c :: cs, s => (exec opts world c s).bind (runCalls opts world cs)

/-- The states in which the calls of a sequence return, in order; the list ends
at the first call that does not return. -/
def traceCalls (opts : Options) (world : World) : List Call → System → List System
  | [], _ => []
  | c :: cs, s =>
    match exec opts world c s with
    | .ok s1 => s1 :: traceCalls opts world cs s1
    | _ => []

/-- The calls of the first statement of the loop body (the `if`/`else` on
`initialized_`) for loop variable `i`. -/
def ingestCalls (i : Int) (s : System) : List Call :=
  if !s.initialized_ then [.InitializeSystem, .AddFrame i, .AddKeyFrame i]
  else [.AddFrame i, .Tracking, .UpdateMessages]

/-- The calls of the second statement of the loop body: the oldest frame is
deleted when `num_frames_ > 10`. -/
def evictCalls (s : System) : List Call :=
  if s.num_frames_ > 10 then [.FreeFrames] else []

/-- One execution of the loop body with loop variable `i`. -/
def loopBody (opts : Options) (world : World) (i : Int) (s : System) : Outcome System :=
  (runCalls opts world (ingestCalls i s) s).bind fun s1 =>
    runCalls opts world (evictCalls s1) s1

/-- The states reached after each call of one execution of the loop body. -/
def bodyTrace (opts : Options) (world : World) (i : Int) (s : System) : List System :=
  traceCalls opts world (ingestCalls i s) s ++
    match runCalls opts world (ingestCalls i s) s with
    | .ok s1 => traceCalls opts world (evictCalls s1) s1
    | _ => []

/-- The loop condition `i < uwSystem->images_list_.size()`. -/
def loopCond (i : Int) (s : System) : Bool :=
  decide (toSizeT i < s.images_list_.length)

/-- The first `k` iterations of `for (int i = ...; i < images_list_.size(); i++)`
started with loop variable `i` in state `s`; the loop is left earlier when its
condition fails.  The increment of `i` is undefined at `INT_MAX`. -/
def loopIterations (opts : Options) (world : World) : Nat → Int → System → Outcome System
  | 0, _, s => .ok s
  | k + 1, i, s =>
    if loopCond i s then
      (loopBody opts world i s).bind fun s1 =>
        match incrInt i with
        | none => .undefined
        | some j => loopIterations opts world k j s1
    else .ok s

/-- The states reached after each call made during the first `k` iterations of
the loop. -/
def loopTrace (opts : Options) (world : World) : Nat → Int → System → List System
  | 0, _, _ => []
  | k + 1, i, s =>
    if loopCond i s then
      bodyTrace opts world i s ++
        match loopBody opts world i s, incrInt i with
        | .ok s1, some j => loopTrace opts world k j s1
        | _, _ => []
    else []


/-- The command line of `main` after parsing. -/
structure Args where
  /-- Directory of the images. -/
  images_path : String
  /-- Path of the calibration file. -/
  calibration_path : String
  /-- Path of the ground truth, empty when not given. -/
  ground_truth_path : String
  /-- Index of the first image to process. -/
  start_index : Int
deriving DecidableEq, Repr

/-- The function `main` from the creation of the system on: `Calibration`,
`AddListImages`, then at most `k` iterations of the loop.  `junk` is what the
storage of the new `System` object holds. -/
def main (opts : Options) (world : World) (junk : Indeterminate) (args : Args) (k : Nat) :
    Outcome System :=
  (Calibration world args.calibration_path (System.new args.start_index junk)).bind fun s =>
    (AddListImages world args.images_path args.ground_truth_path s).bind fun s1 =>
      loopIterations opts world k args.start_index s1

/-! ## Vocabulary of the proofs -/

/-- What the window and keyframe bookkeeping observes of a cell of the free
store: the id, the keyframe flag and the lifetime. -/
def Obj.core (o : Obj) : Int × Bool × Bool :=
  (o.val.idFrame_, o.val.isKeyFrame_, o.alive)

/-- The relation between the states before and after a call that only writes
gradient and candidate data: every member except the free store and the tracker
is unchanged, and no cell changes its id, keyframe flag or lifetime. -/
def Quiet (s s' : System) : Prop :=
  s' = { s with heap := s'.heap, tracker_ := s'.tracker_ } ∧
    s'.heap.map Obj.core = s.heap.map Obj.core ∧
    (s.tracker_.isSome → s'.tracker_.isSome)

/-- Number of `AddFrame` calls in a sequence of calls. -/
def addCount : List Call → Nat
  | [] => 0
  | .AddFrame _ :: cs => addCount cs + 1
  | _ :: cs => addCount cs

/-- What the free store holds at address `a`, as far as the bookkeeping observes
it: id, keyframe flag and lifetime of the cell, `none` when there is no cell. -/
def System.coreAt (s : System) (a : Nat) : Option (Int × Bool × Bool) :=
  (s.heap[a]?).map Obj.core

/-- Address of the `j`-th frame ingested by the loop (counted from 0) when the
free store is empty before the loop.  The first iteration also allocates, at
address 1, the frame created inside `AddKeyFrame`. -/
def frameAddr (j : Nat) : Nat := if j = 0 then 0 else j + 1

/-- The state of the system when `main` enters its loop: the camera model has
been read, nothing has been ingested and no frame has been created. -/
structure PreLoop (s : System) : Prop where
  /-- No frame has been created. -/
  heap : s.heap = []
  /-- The system is not initialized. -/
  init : s.initialized_ = false
  /-- No frame has been ingested. -/
  num_frames : s.num_frames_ = 0
  /-- No keyframe has been counted. -/
  num_keyframes : s.num_keyframes_ = 0
  /-- The window is empty. -/
  frames : s.frames_ = []
  /-- The keyframe list is empty. -/
  keyframes : s.keyframes_ = []

/-- The invariant of the loop of `main` after `k` iterations (`k ≥ 1`) that
started at index `start` with an empty free store, for camera model `cm` and
dataset `imgs`. -/
structure LoopInv (cm : CameraModel) (imgs : List String) (start : Int) (k : Nat)
    (s : System) : Prop where
  /-- The system is initialized. -/
  init : s.initialized_ = true
  /-- One frame was ingested per iteration. -/
  num_frames : s.num_frames_ = k
  /-- The dataset is unchanged. -/
  images : s.images_list_ = imgs
  /-- The rectification flag is that of the camera model. -/
  valid : s.rectification_valid_ = cm.valid
  /-- The first map is that of the camera model. -/
  map1 : s.map1_ = cm.map1
  /-- The tracker exists. -/
  tracker : s.tracker_.isSome = true
  /-- The visualizer exists. -/
  visualizer : s.visualizer_.isSome = true
  /-- The free store holds the ingested frames and the frame of `AddKeyFrame`. -/
  heap_length : s.heap.length = k + 1
  /-- The window holds the last `min k 10` ingested frames, oldest first. -/
  frames : s.frames_ = (List.range' (k - min k 10) (min k 10)).map frameAddr
  /-- The only keyframe is the first ingested frame. -/
  keyframes : s.keyframes_ = [0]
  /-- One keyframe has been counted. -/
  num_keyframes : s.num_keyframes_ = 1
  /-- The current keyframe is the first ingested frame. -/
  current_keyframe : s.current_keyframe_ = some 0
  /-- The current frame is the frame ingested last. -/
  current : s.current_frame_ = some (frameAddr (k - 1))
  /-- The previous frame is the frame ingested before the last. -/
  previous : s.previous_frame_ = some (frameAddr (k - 2))
  /-- The `j`-th ingested frame has id `start + j`, is a keyframe only for
  `j = 0`, and is alive exactly when it is among the last 10. -/
  cells : ∀ j, j < k →
    s.coreAt (frameAddr j) = some (start + j, decide (j = 0), decide (k ≤ j + 10))
  /-- The frame created inside `AddKeyFrame` is not a keyframe. -/
  spare : s.coreAt 1 = some (0, false, true)

/-- Number of times `ApplyGradient` has been invoked on the frame at `a`. -/
def System.gradientCalls (s : System) (a : Nat) : Nat :=
  match s.tracker_ with
  | some t => t.gradient_calls.count a
  | none => 0

/-- Number of times `ObtainAllPoints` has been invoked on the frame at `a`. -/
def System.pointsCalls (s : System) (a : Nat) : Nat :=
  match s.tracker_ with
  | some t => t.points_calls.count a
  | none => 0

/-- The flag `obtained_gradients_` of the frame at `a` (false when there is no
frame). -/
def System.gflag (s : System) (a : Nat) : Bool :=
  match s.heap[a]? with
  | some o => o.val.obtained_gradients_
  | none => false

/-- The flag `obtained_candidatePoints_` of the frame at `a` (false when there
is no frame). -/
def System.pflag (s : System) (a : Nat) : Bool :=
  match s.heap[a]? with
  | some o => o.val.obtained_candidatePoints_
  | none => false

/-- Sequences of `AddFrame` and `Tracking` calls in which every `Tracking` call
comes directly after an `AddFrame` call and at least two frames have been
ingested before it, as in the loop of `main`.  `n` is the number of frames
ingested so far, `fresh` tells whether the last call was `AddFrame`. -/
def trackingFollowsIngestion : Nat → Bool → List Call → Bool
  | _, _, [] => true
  | n, _, .AddFrame _ :: cs => trackingFollowsIngestion (n + 1) true cs
  | n, fresh, .Tracking :: cs => fresh && decide (2 ≤ n) && trackingFollowsIngestion n false cs
  | _, _, _ :: _ => false

/-- The invocation counts agree with the memoization flags: a frame has been
processed once if its flag is set and never otherwise. -/
def CountOK (s : System) : Prop :=
  ∀ a, s.gradientCalls a = (if s.gflag a then 1 else 0) ∧
    s.pointsCalls a = (if s.pflag a then 1 else 0)

/-- The invariant of a run of `AddFrame` and `Tracking` calls after `n`
ingestions; `fresh` tells whether the last call was `AddFrame`. -/
structure TrackInv (n : Nat) (fresh : Bool) (s : System) : Prop where
  /-- The tracker exists. -/
  tracker : s.tracker_.isSome = true
  /-- One frame was counted per ingestion. -/
  num_frames : s.num_frames_ = n
  /-- No frame has been destroyed. -/
  alive : ∀ (a : Nat) (o : Obj), s.heap[a]? = some o → o.alive = true
  /-- Counts and flags agree. -/
  counts : CountOK s
  /-- The current frame is on the free store. -/
  current : 1 ≤ n → ∃ c, s.current_frame_ = some c ∧ c < s.heap.length
  /-- From the second ingestion on the previous frame is another frame. -/
  previous : 2 ≤ n → ∃ p c, s.previous_frame_ = some p ∧ s.current_frame_ = some c ∧
    p ≠ c ∧ p < s.heap.length
  /-- Right after an ingestion the current frame has not been processed. -/
  unprocessed : fresh = true → ∀ c, s.current_frame_ = some c →
    s.gflag c = false ∧ s.pflag c = false

/-! ## Example inputs -/

/-- Five pyramid levels, the value the spec gives as typical. -/
def exampleOptions : Options := { PYRAMID_LEVELS := 5 }

/-- A camera model with a 640 x 480 output and no rectification. -/
def exampleCamera : CameraModel :=
  { input_width := 640, input_height := 480, output_width := 640, output_height := 480,
    map1 := { cols := 0, rows := 0 }, map2 := { cols := 0, rows := 0 }, valid := false }

/-- A camera model whose output size, 17 x 17, is not a multiple of 16. -/
def oddCamera : CameraModel :=
  { input_width := 640, input_height := 480, output_width := 17, output_height := 17,
    map1 := { cols := 0, rows := 0 }, map2 := { cols := 0, rows := 0 }, valid := false }

/-- The names `readdir` reports for the example directory: `.`, `..` and 15
image files. -/
def exampleListing : List String :=
  [".", "..", "00.png", "01.png", "02.png", "03.png", "04.png", "05.png", "06.png",
   "07.png", "08.png", "09.png", "10.png", "11.png", "12.png", "13.png", "14.png"]

/-- The 15 image paths of the example dataset. -/
def exampleDataset : List String :=
  ["data/00.png", "data/01.png", "data/02.png", "data/03.png", "data/04.png",
   "data/05.png", "data/06.png", "data/07.png", "data/08.png", "data/09.png",
   "data/10.png", "data/11.png", "data/12.png", "data/13.png", "data/14.png"]

/-- A world in which every image file is a 640 x 480 image. -/
def exampleWorld : World :=
  { GetCameraModel := fun _ => exampleCamera
    readdir := fun _ => some exampleListing
    imread := fun _ => { cols := 640, rows := 480 }
    remap := fun _ map1 => some map1
    select := fun m => m }

/-- The example world with the camera model of odd output size. -/
def oddWorld : World := { exampleWorld with GetCameraModel := fun _ => oddCamera }

/-- The command line of the examples: the images are in `data/`, no ground
truth, start index 0. -/
def exampleArgs : Args :=
  { images_path := "data/", calibration_path := "calibration.xml", ground_truth_path := "",
    start_index := 0 }

/-- The state in which `main` enters its loop for the example world, start
index 0 and zero-filled storage: the camera model has been read and the dataset
listed. -/
def exampleEntry : System :=
  { System.new 0 { w_ := 0, h_ := 0, w_input_ := 0, h_input_ := 0 } with
    camera_model_ := some exampleCamera
    images_list_ := exampleDataset }

/-- The state reached from `exampleEntry` by a sequence of calls that all
return (`exampleEntry` itself otherwise). -/
def afterCalls (cs : List Call) : System :=
  match runCalls exampleOptions exampleWorld cs exampleEntry with
  | .ok s => s
  | _ => exampleEntry

/-- The state after `k` iterations of the loop in the example run of `main`
(`exampleEntry` when the run does not get there). -/
def exampleRun (k : Nat) : System :=
  match loopIterations exampleOptions exampleWorld k 0 exampleEntry with
  | .ok s => s
  | _ => exampleEntry

/-! ## Basic facts about the member functions -/

theorem incrInt_some {x y : Int} (h : incrInt x = some y) : x < INT_MAX ∧ y = x + 1 := by
  unfold incrInt at h
  split at h
  · exact ⟨by assumption, by simpa using h.symm⟩
  · simp at h

theorem incrInt_of_lt {x : Int} (h : x < INT_MAX) : incrInt x = some (x + 1) := by
  simp [incrInt, h]

theorem AddFrame_ok {opts : Options} {world : World} {id : Int} {s s' : System}
    (h : AddFrame opts world id s = .ok s') :
    ∃ path image_, vecAt s.images_list_ id = some path ∧ opts.PYRAMID_LEVELS ≠ 0 ∧
      readPyramid opts world s.rectification_valid_ s.map1_ path = some image_ ∧
      s.num_frames_ < INT_MAX ∧
      s' = { s with
             heap := s.heap ++ [{ val := { Frame.new opts with idFrame_ := id, image_ := image_ },
                                  alive := true }]
             previous_frame_ := if s.num_frames_ == 0 then some s.heap.length
                                else s.current_frame_
             current_frame_ := some s.heap.length
             frames_ := s.frames_ ++ [s.heap.length]
             num_frames_ := s.num_frames_ + 1 } := by
  unfold AddFrame at h
  simp only at h
  split at h
  · simp at h
  · rename_i path hpath
    split at h
    · simp at h
    · rename_i hL
      split at h
      · simp at h
      · rename_i image_ himg
        split at h
        · simp at h
        · rename_i nf hnf
          obtain ⟨hlt, rfl⟩ := incrInt_some hnf
          simp only [Outcome.ok.injEq] at h
          exact ⟨path, image_, hpath, hL, himg, hlt, h.symm⟩

theorem AddFrame_eq {opts : Options} {world : World} {id : Int} {s : System} {path : String}
    {image_ : List Mat} (hpath : vecAt s.images_list_ id = some path)
    (hL : opts.PYRAMID_LEVELS ≠ 0)
    (himg : readPyramid opts world s.rectification_valid_ s.map1_ path = some image_)
    (hnf : s.num_frames_ < INT_MAX) :
    AddFrame opts world id s = .ok { s with
             heap := s.heap ++ [{ val := { Frame.new opts with idFrame_ := id, image_ := image_ },
                                  alive := true }]
             previous_frame_ := if s.num_frames_ == 0 then some s.heap.length
                                else s.current_frame_
             current_frame_ := some s.heap.length
             frames_ := s.frames_ ++ [s.heap.length]
             num_frames_ := s.num_frames_ + 1 } := by
  simp [AddFrame, hpath, hL, himg, incrInt_of_lt hnf]


@[simp] theorem Outcome.bind_ok {σ : Type} (s : σ) (k : σ → Outcome σ) :
    (Outcome.ok s).bind k = k s := rfl

@[simp] theorem Outcome.bind_exit {σ : Type} (c : Int) (s : σ) (k : σ → Outcome σ) :
    (Outcome.exit c s).bind k = .exit c s := rfl

@[simp] theorem Outcome.bind_threw {σ : Type} (k : σ → Outcome σ) :
    (Outcome.threw).bind k = .threw := rfl

@[simp] theorem Outcome.bind_undefined {σ : Type} (k : σ → Outcome σ) :
    (Outcome.undefined).bind k = .undefined := rfl

theorem Outcome.bind_eq_ok {σ : Type} {o : Outcome σ} {k : σ → Outcome σ} {s' : σ}
    (h : o.bind k = .ok s') : ∃ s1, o = .ok s1 ∧ k s1 = .ok s' := by
  cases o with
  | ok s1 => exact ⟨s1, rfl, h⟩
  | exit c s1 => simp at h
  | threw => simp at h
  | undefined => simp at h

theorem Quiet.refl (s : System) : Quiet s s := ⟨rfl, rfl, id⟩

theorem Quiet.trans {s1 s2 s3 : System} (h12 : Quiet s1 s2) (h23 : Quiet s2 s3) :
    Quiet s1 s3 := by
  obtain ⟨e1, m1, t1⟩ := h12
  obtain ⟨e2, m2, t2⟩ := h23
  refine ⟨?_, m2.trans m1, fun h => t2 (t1 h)⟩
  rw [e2, e1]

theorem map_set_same {α β : Type} (f : α → β) (l : List α) (a : Nat) (o o' : α)
    (h : l[a]? = some o) (hf : f o' = f o) : (l.set a o').map f = l.map f := by
  apply List.ext_getElem?
  intro n
  simp only [List.getElem?_map, List.getElem?_set]
  by_cases hn : a = n
  · subst hn
    have hlt : a < l.length := by
      by_contra hc
      rw [List.getElem?_eq_none (by omega)] at h
      simp at h
    simp [hlt, h, hf]
  · simp [hn]

theorem deref_some {s : System} {a : Nat} {f : Frame} (h : s.deref (some a) = some f) :
    s.heap[a]? = some { val := f, alive := true } := by
  unfold System.deref at h
  simp only at h
  split at h
  · rename_i o ho
    split at h
    · rename_i hal
      simp only [Option.some.injEq] at h
      subst h
      rw [ho]
      cases o
      simp_all
    · simp at h
  · simp at h

theorem deref_of_cell {s : System} {a : Nat} {f : Frame}
    (h : s.heap[a]? = some { val := f, alive := true }) : s.deref (some a) = some f := by
  simp [System.deref, h]

theorem ApplyGradient_ok {s s' : System} {p : Option Nat}
    (h : Tracker.ApplyGradient s p = .ok s') :
    ∃ t a f, s.tracker_ = some t ∧ p = some a ∧ s.deref (some a) = some f ∧
      s' = { s.store a { f with
                          gradientX_ := f.image_
                          gradientY_ := f.image_
                          gradient_ := f.image_
                          obtained_gradients_ := true } with
             tracker_ := some { t with gradient_calls := t.gradient_calls ++ [a] } } := by
  unfold Tracker.ApplyGradient at h
  cases ht : s.tracker_ with
  | none => simp [ht] at h
  | some t =>
    cases p with
    | none => simp [ht] at h
    | some a =>
      cases hf : s.deref (some a) with
      | none => simp [ht, hf] at h
      | some f =>
        simp only [ht, hf, Outcome.ok.injEq] at h
        exact ⟨t, a, f, rfl, rfl, hf, h.symm⟩

theorem ObtainAllPoints_ok {world : World} {s s' : System} {p : Option Nat}
    (h : Tracker.ObtainAllPoints world s p = .ok s') :
    ∃ t a f, s.tracker_ = some t ∧ p = some a ∧ s.deref (some a) = some f ∧
      s' = { s.store a { f with
                          candidatePoints_ := f.gradient_.map world.select
                          candidatePointsDepth_ := f.gradient_.map world.select
                          obtained_candidatePoints_ := true } with
             tracker_ := some { t with points_calls := t.points_calls ++ [a] } } := by
  unfold Tracker.ObtainAllPoints at h
  cases ht : s.tracker_ with
  | none => simp [ht] at h
  | some t =>
    cases p with
    | none => simp [ht] at h
    | some a =>
      cases hf : s.deref (some a) with
      | none => simp [ht, hf] at h
      | some f =>
        simp only [ht, hf, Outcome.ok.injEq] at h
        exact ⟨t, a, f, rfl, rfl, hf, h.symm⟩

theorem ApplyGradient_quiet {s s' : System} {p : Option Nat}
    (h : Tracker.ApplyGradient s p = .ok s') : Quiet s s' := by
  obtain ⟨t, a, f, ht, rfl, hf, rfl⟩ := ApplyGradient_ok h
  refine ⟨rfl, ?_, fun _ => rfl⟩
  exact map_set_same Obj.core s.heap a _ _ (deref_some hf) rfl

theorem ObtainAllPoints_quiet {world : World} {s s' : System} {p : Option Nat}
    (h : Tracker.ObtainAllPoints world s p = .ok s') : Quiet s s' := by
  obtain ⟨t, a, f, ht, rfl, hf, rfl⟩ := ObtainAllPoints_ok h
  refine ⟨rfl, ?_, fun _ => rfl⟩
  exact map_set_same Obj.core s.heap a _ _ (deref_some hf) rfl

theorem Tracking_quiet {world : World} {s s' : System} (h : Tracking world s = .ok s') :
    Quiet s s' := by
  unfold Tracking at h
  split at h
  · simp at h
  · rename_i prev hprev
    obtain ⟨s1, h1, h⟩ := Outcome.bind_eq_ok h
    have q1 : Quiet s s1 := by
      split at h1
      · exact ApplyGradient_quiet h1
      · simp only [Outcome.ok.injEq] at h1
        subst h1
        exact Quiet.refl s
    split at h
    · simp at h
    · obtain ⟨s2, h2, h⟩ := Outcome.bind_eq_ok h
      have q2 : Quiet s1 s2 := by
        split at h2
        · exact ObtainAllPoints_quiet h2
        · simp only [Outcome.ok.injEq] at h2
          subst h2
          exact Quiet.refl s1
      obtain ⟨s3, h3, h⟩ := Outcome.bind_eq_ok h
      exact (q1.trans q2).trans ((ApplyGradient_quiet h3).trans (ObtainAllPoints_quiet h))

theorem InitializeSystem_eq {s : System} {cm : CameraModel} (h : s.camera_model_ = some cm) :
    InitializeSystem s = .ok { s with
          w_input_ := cm.input_height
          h_input_ := cm.input_width
          w_ := cm.output_width
          h_ := cm.output_height
          map1_ := cm.map1
          map2_ := cm.map2
          rectification_valid_ := cm.valid
          tracker_ := some { w := cm.output_width, h := cm.output_height,
                             gradient_calls := [], points_calls := [] }
          visualizer_ := some { start_index := s.start_index_,
                                num_images := s.images_list_.length,
                                ground_truth_path := s.ground_truth_path_ }
          initialized_ := true } := by
  simp [InitializeSystem, h]

theorem InitializeSystem_ok {s s' : System} (h : InitializeSystem s = .ok s') :
    s'.frames_ = s.frames_ ∧ s'.num_frames_ = s.num_frames_ := by
  cases hc : s.camera_model_ with
  | none => simp [InitializeSystem, hc] at h
  | some cm =>
    rw [InitializeSystem_eq hc] at h
    simp only [Outcome.ok.injEq] at h
    subst h
    exact ⟨rfl, rfl⟩

theorem AddKeyFrame_ok {opts : Options} {id : Int} {s s' : System}
    (h : AddKeyFrame opts id s = .ok s') :
    ∃ cur a, s.deref s.current_frame_ = some cur ∧ id ≤ cur.idFrame_ ∧
      vecAt s.frames_ (s.num_frames_ - 1) = some a ∧
      s' = { s with
             heap := s'.heap
             current_keyframe_ := some a
             num_keyframes_ := s.num_keyframes_ + 1
             keyframes_ := s.keyframes_ ++ [a] } := by
  unfold AddKeyFrame at h
  cases hcur : s.deref s.current_frame_ with
  | none => simp [hcur] at h
  | some cur =>
    simp only [hcur] at h
    by_cases hid : id > cur.idFrame_
    · simp [hid] at h
    · simp only [hid, if_false] at h
      cases ha : vecAt s.frames_ (s.num_frames_ - 1) with
      | none => simp [ha] at h
      | some a =>
        simp only [ha] at h
        split at h
        · simp at h
        · split at h
          · simp at h
          · rename_i nk hk
            simp only [Outcome.ok.injEq] at h
            obtain ⟨hlt, rfl⟩ := incrInt_some hk
            subst h
            exact ⟨cur, a, rfl, by omega, rfl, rfl⟩

theorem AddKeyFrame_eq {opts : Options} {id : Int} {s : System} {cur f : Frame} {a : Nat}
    (hcur : s.deref s.current_frame_ = some cur) (hid : id ≤ cur.idFrame_)
    (ha : vecAt s.frames_ (s.num_frames_ - 1) = some a)
    (hf : s.deref (some a) = some f) (hk : s.num_keyframes_ < INT_MAX) :
    AddKeyFrame opts id s = .ok { s with
             heap := (s.heap ++ [Obj.mk (Frame.new opts) true]).set a
                       { val := { f with isKeyFrame_ := true }, alive := true }
             current_keyframe_ := some a
             num_keyframes_ := s.num_keyframes_ + 1
             keyframes_ := s.keyframes_ ++ [a] } := by
  have hlt : a < s.heap.length := by
    have := deref_some hf
    by_contra hc
    rw [List.getElem?_eq_none (by omega)] at this
    simp at this
  have hf1 : System.deref { s with heap := s.heap ++ [Obj.mk (Frame.new opts) true] }
      (some a) = some f := by
    apply deref_of_cell
    simp only
    rw [List.getElem?_append_left hlt]
    exact deref_some hf
  have hid2 : ¬ id > cur.idFrame_ := by omega
  simp only [AddKeyFrame, hcur, hid2, if_false, ha, hf1, incrInt_of_lt hk, System.store]

theorem FreeFrames_ok {s s' : System} (h : FreeFrames s = .ok s') :
    ∃ a rest f, s.frames_ = a :: rest ∧ s.deref (some a) = some f ∧
      s' = { s with heap := s.heap.set a { val := f.destructor, alive := false },
                    frames_ := rest } := by
  unfold FreeFrames at h
  cases hfr : s.frames_ with
  | nil => simp [hfr] at h
  | cons a rest =>
    simp only [hfr] at h
    cases hf : s.deref (some a) with
    | none => simp [hf] at h
    | some f =>
      simp only [hf, Outcome.ok.injEq] at h
      exact ⟨a, rest, f, rfl, hf, h.symm⟩

theorem FreeFrames_eq {s : System} {a : Nat} {rest : List Nat} {f : Frame}
    (hfr : s.frames_ = a :: rest) (hf : s.deref (some a) = some f) :
    FreeFrames s = .ok { s with heap := s.heap.set a { val := f.destructor, alive := false },
                                frames_ := rest } := by
  simp [FreeFrames, hfr, hf]

theorem UpdateMessages_ok {s s' : System} (h : UpdateMessages s = .ok s') : s' = s := by
  unfold UpdateMessages at h
  split at h
  · simpa using h.symm
  · simp at h

theorem UpdateMessages_eq {s : System} (hv : s.visualizer_.isSome)
    (hp : (s.deref s.previous_frame_).isSome) : UpdateMessages s = .ok s := by
  unfold UpdateMessages
  cases h1 : s.visualizer_ with
  | none => simp [h1] at hv
  | some v =>
    cases h2 : s.deref s.previous_frame_ with
    | none => simp [h2] at hp
    | some f => rfl


/-! ## The example run -/

theorem exampleListing_sorted :
    List.insertionSort (· ≤ ·) (exampleListing.map fun d_name => "data/" ++ d_name)
      = "data/." :: "data/.." :: exampleDataset := by
  have hmap : (exampleListing.map fun d_name => "data/" ++ d_name)
      = "data/." :: "data/.." :: exampleDataset := by decide
  rw [hmap]
  apply List.Sorted.insertionSort_eq
  apply List.chain'_iff_pairwise.mp
  simp only [exampleDataset, List.chain'_cons, List.chain'_singleton, and_true,
    String.le_iff_toList_le]
  decide

theorem AddListImages_example (world : World) (s : System)
    (h : world.readdir "data/" = some exampleListing) :
    AddListImages world "data/" "" s
      = .ok { s with ground_truth_path_ := "", images_list_ := exampleDataset } := by
  simp only [AddListImages, h, exampleListing_sorted]
  rfl

theorem main_example (k : Nat) :
    main exampleOptions exampleWorld { w_ := 0, h_ := 0, w_input_ := 0, h_input_ := 0 }
        exampleArgs k
      = loopIterations exampleOptions exampleWorld k 0 exampleEntry := by
  simp only [main, exampleArgs]
  rw [show Calibration exampleWorld "calibration.xml"
      (System.new 0 { w_ := 0, h_ := 0, w_input_ := 0, h_input_ := 0 })
      = .ok { System.new 0 { w_ := 0, h_ := 0, w_input_ := 0, h_input_ := 0 } with
              camera_model_ := some exampleCamera } from rfl]
  rw [Outcome.bind_ok, AddListImages_example exampleWorld _ rfl, Outcome.bind_ok]
  rfl

theorem exampleEntry_preLoop : PreLoop exampleEntry := ⟨rfl, rfl, rfl, rfl, rfl, rfl⟩

theorem exampleDataset_loads :
    ∀ p ∈ exampleEntry.images_list_,
      (readPyramid exampleOptions exampleWorld exampleCamera.valid exampleCamera.map1 p).isSome := by
  decide


/-! ## The size of the window during the loop -/

theorem AddFrame_window {opts : Options} {world : World} {id : Int} {s s' : System}
    (h : AddFrame opts world id s = .ok s') :
    s'.frames_ = s.frames_ ++ [s.heap.length] ∧ s'.num_frames_ = s.num_frames_ + 1 := by
  obtain ⟨path, image_, _, _, _, _, rfl⟩ := AddFrame_ok h
  exact ⟨rfl, rfl⟩

theorem exec_window {opts : Options} {world : World} {c : Call} {s s' : System}
    (hc : c ≠ .FreeFrames) (h : exec opts world c s = .ok s') :
    s'.frames_.length = s.frames_.length + addCount [c] ∧
      s'.num_frames_ = s.num_frames_ + addCount [c] := by
  cases c with
  | InitializeSystem =>
    have := InitializeSystem_ok h
    simp [addCount, this.1, this.2]
  | AddFrame id =>
    have := AddFrame_window h
    simp [addCount, this.1, this.2]
  | AddKeyFrame id =>
    obtain ⟨cur, a, _, _, _, e⟩ := AddKeyFrame_ok h
    rw [e]
    simp [addCount]
  | Tracking =>
    have := (Tracking_quiet h).1
    rw [this]
    simp [addCount]
  | UpdateMessages =>
    have := UpdateMessages_ok h
    simp [addCount, this]
  | FreeFrames => exact absurd rfl hc

theorem addCount_cons (c : Call) (cs : List Call) :
    addCount (c :: cs) = addCount [c] + addCount cs := by
  cases c <;> simp [addCount]; omega

theorem runCalls_window {opts : Options} {world : World} :
    ∀ (cs : List Call) (s s' : System), (∀ c ∈ cs, c ≠ Call.FreeFrames) →
      runCalls opts world cs s = .ok s' →
      s'.frames_.length = s.frames_.length + addCount cs ∧
        s'.num_frames_ = s.num_frames_ + addCount cs := by
  intro cs
  induction cs with
  | nil =>
    intro s s' _ h
    simp only [runCalls, Outcome.ok.injEq] at h
    subst h
    simp [addCount]
  | cons c cs ih =>
    intro s s' hne h
    simp only [runCalls] at h
    obtain ⟨s1, h1, h2⟩ := Outcome.bind_eq_ok h
    have e1 := exec_window (hne c (by simp)) h1
    have e2 := ih s1 s' (fun c hc => hne c (by simp [hc])) h2
    rw [addCount_cons]
    constructor
    · omega
    · rw [e2.2, e1.2]
      push_cast
      ring

theorem traceCalls_window {opts : Options} {world : World} :
    ∀ (cs : List Call) (s : System), (∀ c ∈ cs, c ≠ Call.FreeFrames) →
      ∀ st ∈ traceCalls opts world cs s, st.frames_.length ≤ s.frames_.length + addCount cs := by
  intro cs
  induction cs with
  | nil =>
    intro s _ st hst
    simp [traceCalls] at hst
  | cons c cs ih =>
    intro s hne st hst
    simp only [traceCalls] at hst
    cases h1 : exec opts world c s with
    | ok s1 =>
      simp only [h1, List.mem_cons] at hst
      have e1 := exec_window (hne c (by simp)) h1
      rw [addCount_cons]
      rcases hst with rfl | hst
      · omega
      · have := ih s1 (fun c hc => hne c (by simp [hc])) st hst
        omega
    | exit c s1 => simp [h1] at hst
    | threw => simp [h1] at hst
    | undefined => simp [h1] at hst

theorem ingestCalls_shape (i : Int) (s : System) :
    (∀ c ∈ ingestCalls i s, c ≠ Call.FreeFrames) ∧ addCount (ingestCalls i s) = 1 := by
  unfold ingestCalls
  split <;> simp [addCount]

/-- The bound on the window that holds whenever the loop condition is tested. -/
theorem loopBody_window {opts : Options} {world : World} (i : Int) (s : System)
    (h10 : s.frames_.length ≤ 10) (hnf : (s.frames_.length : Int) ≤ s.num_frames_) :
    (∀ st ∈ bodyTrace opts world i s, st.frames_.length ≤ 11) ∧
      ∀ s', loopBody opts world i s = .ok s' →
        s'.frames_.length ≤ 10 ∧ (s'.frames_.length : Int) ≤ s'.num_frames_ := by
  obtain ⟨hne, hcount⟩ := ingestCalls_shape i s
  have key : ∀ s1, runCalls opts world (ingestCalls i s) s = .ok s1 →
      (∀ st ∈ traceCalls opts world (evictCalls s1) s1, st.frames_.length ≤ 11) ∧
      ∀ s', runCalls opts world (evictCalls s1) s1 = .ok s' →
        s'.frames_.length ≤ 10 ∧ (s'.frames_.length : Int) ≤ s'.num_frames_ := by
    intro s1 h1
    have e := runCalls_window _ s s1 hne h1
    rw [hcount] at e
    unfold evictCalls
    by_cases hgt : s1.num_frames_ > 10
    · simp only [hgt, if_true, traceCalls, runCalls]
      constructor
      · intro st hst
        cases hfree : exec opts world Call.FreeFrames s1 with
        | ok s2 =>
          simp only [hfree, List.mem_cons, List.not_mem_nil, or_false] at hst
          subst hst
          obtain ⟨a, rest, f, hfr, _, rfl⟩ := FreeFrames_ok hfree
          have : s1.frames_.length = rest.length + 1 := by simp [hfr]
          simp only
          omega
        | exit c s2 => simp [hfree] at hst
        | threw => simp [hfree] at hst
        | undefined => simp [hfree] at hst
      · intro s' h'
        obtain ⟨s2, hfree, h2⟩ := Outcome.bind_eq_ok h'
        simp only [Outcome.ok.injEq] at h2
        subst h2
        obtain ⟨a, rest, f, hfr, _, rfl⟩ := FreeFrames_ok hfree
        have : s1.frames_.length = rest.length + 1 := by simp [hfr]
        simp only
        constructor <;> omega
    · simp only [hgt, if_false, traceCalls, runCalls, List.not_mem_nil, false_imp_iff,
        implies_true, true_and, Outcome.ok.injEq]
      intro s' h'
      subst h'
      constructor <;> omega
  constructor
  · intro st hst
    unfold bodyTrace at hst
    rw [List.mem_append] at hst
    rcases hst with hst | hst
    · have := traceCalls_window _ s hne st hst
      omega
    · cases h1 : runCalls opts world (ingestCalls i s) s with
      | ok s1 =>
        simp only [h1] at hst
        exact (key s1 h1).1 st hst
      | exit c s1 => simp [h1] at hst
      | threw => simp [h1] at hst
      | undefined => simp [h1] at hst
  · intro s' h'
    unfold loopBody at h'
    obtain ⟨s1, h1, h2⟩ := Outcome.bind_eq_ok h'
    exact (key s1 h1).2 s' h2

theorem loopTrace_window {opts : Options} {world : World} :
    ∀ (k : Nat) (i : Int) (s : System), s.frames_.length ≤ 10 →
      (s.frames_.length : Int) ≤ s.num_frames_ →
      ∀ st ∈ loopTrace opts world k i s, st.frames_.length ≤ 11 := by
  intro k
  induction k with
  | zero =>
    intro i s _ _ st hst
    simp [loopTrace] at hst
  | succ k ih =>
    intro i s h10 hnf st hst
    simp only [loopTrace] at hst
    split at hst
    · rw [List.mem_append] at hst
      have hb := @loopBody_window opts world i s h10 hnf
      rcases hst with hst | hst
      · exact hb.1 st hst
      · split at hst
        · rename_i s1 j hs1 hj
          have := hb.2 s1 hs1
          exact ih j s1 this.1 this.2 st hst
        · simp at hst
    · simp at hst

/-- C1: in every run of the per-frame loop of `main`, started with an empty window
and `num_frames_ = 0`, every state reached after a call made by the loop has at
most 11 frames in `frames_`, for any number of iterations and images. -/
theorem window_never_exceeds_eleven (opts : Options) (world : World) (k : Nat) (i : Int)
    (s : System) (hframes : s.frames_ = []) (hnum : s.num_frames_ = 0) :
    ∀ st ∈ loopTrace opts world k i s, st.frames_.length ≤ 11 :=
  loopTrace_window k i s (by simp [hframes]) (by simp [hframes, hnum])


/-- Witness for C1: the state after `AddFrame` in the 11th iteration of the
example run holds 11 frames and is covered by the bound. -/
theorem window_never_exceeds_eleven_witness :
    ((loopTrace exampleOptions exampleWorld 13 0 exampleEntry).get ⟨30, by decide⟩).frames_.length
        = 11 ∧
      ((loopTrace exampleOptions exampleWorld 13 0 exampleEntry).get
        ⟨30, by decide⟩).frames_.length ≤ 11 :=
  ⟨by decide,
    window_never_exceeds_eleven exampleOptions exampleWorld 13 0 exampleEntry rfl rfl _
      (List.get_mem _ _ _)⟩


/-! ## The loop of `main`: tracking returns, and the loop invariant -/

theorem coreAt_quiet {s s' : System} (h : Quiet s s') (a : Nat) : s'.coreAt a = s.coreAt a := by
  unfold System.coreAt
  rw [← List.getElem?_map, ← List.getElem?_map, h.2.1]

theorem deref_of_coreAt {s : System} {a : Nat} {i : Int} {b : Bool}
    (h : s.coreAt a = some (i, b, true)) :
    ∃ f, s.deref (some a) = some f ∧ f.idFrame_ = i ∧ f.isKeyFrame_ = b := by
  unfold System.coreAt at h
  cases ho : s.heap[a]? with
  | none => simp [ho] at h
  | some o =>
    simp only [ho, Option.map_some', Option.some.injEq, Obj.core, Prod.mk.injEq] at h
    refine ⟨o.val, ?_, h.1, h.2.1⟩
    simp [System.deref, ho, h.2.2]

theorem coreAt_of_deref {s : System} {a : Nat} {f : Frame} (h : s.deref (some a) = some f) :
    s.coreAt a = some (f.idFrame_, f.isKeyFrame_, true) := by
  simp [System.coreAt, deref_some h, Obj.core]

theorem Quiet.deref_isSome {s s' : System} (h : Quiet s s') {p : Option Nat}
    (hd : (s.deref p).isSome) : (s'.deref p).isSome := by
  cases p with
  | none => simp [System.deref] at hd
  | some a =>
    cases hf : s.deref (some a) with
    | none => simp [hf] at hd
    | some f =>
      have := coreAt_of_deref hf
      rw [← coreAt_quiet h] at this
      obtain ⟨f', hf', _⟩ := deref_of_coreAt this
      simp [hf']

theorem Quiet.fields {s s' : System} (h : Quiet s s') :
    s'.previous_frame_ = s.previous_frame_ ∧ s'.current_frame_ = s.current_frame_ := by
  have := h.1
  constructor
  · rw [this]
  · rw [this]

theorem ApplyGradient_returns {s : System} {p : Option Nat} (ht : s.tracker_.isSome)
    (hd : (s.deref p).isSome) : ∃ s', Tracker.ApplyGradient s p = .ok s' := by
  cases p with
  | none => simp [System.deref] at hd
  | some a =>
    cases hf : s.deref (some a) with
    | none => simp [hf] at hd
    | some f =>
      cases h1 : s.tracker_ with
      | none => simp [h1] at ht
      | some t =>
        cases hres : Tracker.ApplyGradient s (some a) with
        | ok s' => exact ⟨s', rfl⟩
        | exit c s' => simp [Tracker.ApplyGradient, h1, hf] at hres
        | threw => simp [Tracker.ApplyGradient, h1, hf] at hres
        | undefined => simp [Tracker.ApplyGradient, h1, hf] at hres

theorem ObtainAllPoints_returns {world : World} {s : System} {p : Option Nat}
    (ht : s.tracker_.isSome) (hd : (s.deref p).isSome) :
    ∃ s', Tracker.ObtainAllPoints world s p = .ok s' := by
  cases p with
  | none => simp [System.deref] at hd
  | some a =>
    cases hf : s.deref (some a) with
    | none => simp [hf] at hd
    | some f =>
      cases h1 : s.tracker_ with
      | none => simp [h1] at ht
      | some t =>
        cases hres : Tracker.ObtainAllPoints world s (some a) with
        | ok s' => exact ⟨s', rfl⟩
        | exit c s' => simp [Tracker.ObtainAllPoints, h1, hf] at hres
        | threw => simp [Tracker.ObtainAllPoints, h1, hf] at hres
        | undefined => simp [Tracker.ObtainAllPoints, h1, hf] at hres

theorem Tracking_returns {world : World} {s : System} (ht : s.tracker_.isSome)
    (hp : (s.deref s.previous_frame_).isSome) (hc : (s.deref s.current_frame_).isSome) :
    ∃ s', Tracking world s = .ok s' := by
  unfold Tracking
  cases hprev : s.deref s.previous_frame_ with
  | none => simp [hprev] at hp
  | some prev =>
    simp only
    have step1 : ∃ s1, (if !prev.obtained_gradients_ then
        Tracker.ApplyGradient s s.previous_frame_ else .ok s) = .ok s1 ∧ Quiet s s1 := by
      split
      · obtain ⟨s1, h1⟩ := ApplyGradient_returns ht hp
        exact ⟨s1, h1, ApplyGradient_quiet h1⟩
      · exact ⟨s, rfl, Quiet.refl s⟩
    obtain ⟨s1, h1, q1⟩ := step1
    rw [h1, Outcome.bind_ok]
    have hp1 : (s1.deref s1.previous_frame_).isSome := by
      rw [q1.fields.1]
      exact q1.deref_isSome hp
    cases hprev1 : s1.deref s1.previous_frame_ with
    | none => simp [hprev1] at hp1
    | some prev1 =>
      simp only
      have step2 : ∃ s2, (if !prev1.obtained_candidatePoints_ then
          Tracker.ObtainAllPoints world s1 s1.previous_frame_ else .ok s1) = .ok s2 ∧
          Quiet s1 s2 := by
        split
        · obtain ⟨s2, h2⟩ := @ObtainAllPoints_returns world _ _ (q1.2.2 ht) hp1
          exact ⟨s2, h2, ObtainAllPoints_quiet h2⟩
        · exact ⟨s1, rfl, Quiet.refl s1⟩
      obtain ⟨s2, h2, q2⟩ := step2
      rw [h2, Outcome.bind_ok]
      have q12 := q1.trans q2
      have hc2 : (s2.deref s2.current_frame_).isSome := by
        rw [q12.fields.2]
        exact q12.deref_isSome hc
      obtain ⟨s3, h3⟩ := ApplyGradient_returns (q12.2.2 ht) hc2
      rw [h3, Outcome.bind_ok]
      have q3 := ApplyGradient_quiet h3
      have hc3 : (s3.deref s3.current_frame_).isSome := by
        rw [q3.fields.2]
        exact q3.deref_isSome hc2
      exact @ObtainAllPoints_returns world _ _ (q3.2.2 (q12.2.2 ht)) hc3


theorem INT_MAX_pos : (0 : Int) < INT_MAX := by decide

theorem first_iteration {opts : Options} {world : World} {s0 : System} {cm : CameraModel}
    {i : Int} {path : String} (hpre : PreLoop s0) (hcm : s0.camera_model_ = some cm)
    (hL : 0 < opts.PYRAMID_LEVELS) (hpath : vecAt s0.images_list_ i = some path)
    (hload : (readPyramid opts world cm.valid cm.map1 path).isSome) :
    ∃ s1, loopBody opts world i s0 = .ok s1 ∧ LoopInv cm s0.images_list_ i 1 s1 := by
  obtain ⟨image_, himg⟩ := Option.isSome_iff_exists.mp hload
  obtain ⟨hheap, hinit, hnf, hnk, hfr, hkf⟩ := hpre
  obtain ⟨sA, hA, eA⟩ : ∃ sA, InitializeSystem s0 = .ok sA ∧ sA = _ :=
    ⟨_, InitializeSystem_eq hcm, rfl⟩
  obtain ⟨sB, hB, eB⟩ : ∃ sB, AddFrame opts world i sA = .ok sB ∧ sB = _ :=
    ⟨_, @AddFrame_eq opts world i sA path image_ (by rw [eA]; exact hpath) (by omega)
      (by rw [eA]; exact himg) (by rw [eA]; simp only [hnf]; exact INT_MAX_pos), rfl⟩
  have hBheap : sB.heap = [Obj.mk { Frame.new opts with idFrame_ := i, image_ := image_ } true] := by
    rw [eB, eA]; simp [hheap]
  have hBcur : sB.current_frame_ = some 0 := by rw [eB, eA]; simp [hheap]
  have hBfr : sB.frames_ = [0] := by rw [eB, eA]; simp [hheap, hfr]
  have hBnf : sB.num_frames_ = 1 := by rw [eB, eA]; simp [hnf]
  have hBnk : sB.num_keyframes_ = 0 := by rw [eB, eA]; simp [hnk]
  obtain ⟨sC, hC, eC⟩ : ∃ sC, AddKeyFrame opts i sB = .ok sC ∧ sC = _ :=
    ⟨_, @AddKeyFrame_eq opts i sB { Frame.new opts with idFrame_ := i, image_ := image_ }
      { Frame.new opts with idFrame_ := i, image_ := image_ } 0
      (by rw [hBcur]; simp [System.deref, hBheap]) (le_refl _)
      (by rw [hBfr, hBnf]; rfl) (by simp [System.deref, hBheap])
      (by rw [hBnk]; exact INT_MAX_pos), rfl⟩
  refine ⟨sC, ?_, ?_⟩
  · have hCnf : ¬ sC.num_frames_ > 10 := by rw [eC]; simp [hBnf]
    simp only [loopBody, ingestCalls, hinit, Bool.not_false, if_true, runCalls, exec, hA,
      Outcome.bind_ok, hB, hC, evictCalls, hCnf, if_false]
  · rw [eC]
    constructor
    · rw [eB, eA]
    · simp [hBnf]
    · rw [eB, eA]
    · rw [eB, eA]
    · rw [eB, eA]
    · rw [eB, eA]; rfl
    · rw [eB, eA]; rfl
    · simp [hBheap]
    · simp [hBfr, frameAddr]
    · rw [eB, eA]; simp [hkf]
    · simp [hBnk]
    · rfl
    · simp [hBcur, frameAddr]
    · rw [eB, eA]; simp [hnf, hheap, frameAddr]
    · intro j hj
      have : j = 0 := by omega
      subst this
      simp [System.coreAt, hBheap, frameAddr, Obj.core]
    · simp [System.coreAt, hBheap, Obj.core, Frame.new]


theorem coreAt_lt {s : System} {a : Nat} {c : Int × Bool × Bool} (h : s.coreAt a = some c) :
    a < s.heap.length := by
  unfold System.coreAt at h
  by_contra hc
  rw [List.getElem?_eq_none (by omega)] at h
  simp at h

theorem frameAddr_succ (j : Nat) (hj : 1 ≤ j) : frameAddr j = j + 1 := by
  unfold frameAddr
  have : j ≠ 0 := by omega
  simp [this]

theorem frameAddr_le (j : Nat) : frameAddr j ≤ j + 1 := by
  unfold frameAddr
  split <;> omega

theorem frameAddr_ne_one (j : Nat) : frameAddr j ≠ 1 := by
  unfold frameAddr
  split <;> omega

theorem frameAddr_inj {i j : Nat} (h : frameAddr i = frameAddr j) : i = j := by
  unfold frameAddr at h
  split at h <;> split at h <;> omega

theorem loop_step {opts : Options} {world : World} {cm : CameraModel} {imgs : List String}
    {start : Int} {k : Nat} {s : System} {path : String}
    (hinv : LoopInv cm imgs start k s) (hk : 1 ≤ k) (hL : 0 < opts.PYRAMID_LEVELS)
    (hpath : vecAt imgs (start + k) = some path)
    (hload : (readPyramid opts world cm.valid cm.map1 path).isSome)
    (hmax : (k : Int) < INT_MAX) :
    ∃ s', loopBody opts world (start + k) s = .ok s' ∧ LoopInv cm imgs start (k + 1) s' := by
  obtain ⟨image_, himg⟩ := Option.isSome_iff_exists.mp hload
  obtain ⟨sB, hB, eB⟩ : ∃ sB, AddFrame opts world (start + k) s = .ok sB ∧ sB = _ :=
    ⟨_, @AddFrame_eq opts world (start + k) s path image_ (by rw [hinv.images]; exact hpath)
      (by omega) (by rw [hinv.valid, hinv.map1]; exact himg)
      (by rw [hinv.num_frames]; exact hmax), rfl⟩
  have hnf0 : ¬ ((k : Int) == 0) = true := by simp; omega
  simp only [hinv.num_frames, hnf0, if_false, hinv.heap_length, hinv.current,
    hinv.frames] at eB
  -- observations of the state after `AddFrame`
  have hBcore : ∀ a, sB.coreAt a = if a < k + 1 then s.coreAt a
      else if a = k + 1 then some (start + k, false, true) else none := by
    intro a
    rw [eB]
    simp only [System.coreAt, List.getElem?_append, hinv.heap_length]
    split
    · rfl
    · by_cases ha : a = k + 1
      · subst ha
        simp [Obj.core, Frame.new]
      · have : a - (k + 1) ≠ 0 := by omega
        simp [ha]
        omega
  have hBprev : sB.coreAt (frameAddr (k - 1)) = some (start + (k - 1 : Nat), decide (k - 1 = 0), true) := by
    rw [hBcore, if_pos (by have := frameAddr_le (k - 1); omega), hinv.cells (k - 1) (by omega)]
    simp
    omega
  have hBcur : sB.coreAt (k + 1) = some (start + k, false, true) := by
    rw [hBcore]; simp
  have hBt : sB.tracker_.isSome = true := by rw [eB]; exact hinv.tracker
  have hBp : sB.previous_frame_ = some (frameAddr (k - 1)) := by rw [eB]; simp
  have hBc : sB.current_frame_ = some (k + 1) := by rw [eB]
  obtain ⟨sT, hT⟩ := @Tracking_returns world sB hBt
    (by rw [hBp]; obtain ⟨f, hf, _⟩ := deref_of_coreAt hBprev; simp [hf])
    (by rw [hBc]; obtain ⟨f, hf, _⟩ := deref_of_coreAt hBcur; simp [hf])
  have q := Tracking_quiet hT
  have eT := q.1
  have hU : UpdateMessages sT = .ok sT := by
    apply UpdateMessages_eq
    · rw [eT, eB]; exact hinv.visualizer
    · rw [q.fields.1, hBp]
      apply q.deref_isSome
      obtain ⟨f, hf, _⟩ := deref_of_coreAt hBprev
      simp [hf]
  have hTcore : ∀ a, sT.coreAt a = sB.coreAt a := coreAt_quiet q
  have hTlen : sT.heap.length = k + 2 := by
    have := congrArg List.length q.2.1
    simp only [List.length_map] at this
    rw [this, eB]
    simp [hinv.heap_length]
  have hTfr : sT.frames_ = (List.range' (k - min k 10) (min k 10 + 1)).map frameAddr := by
    rw [eT, eB]
    simp only [List.range'_1_concat, List.map_append, List.map_cons, List.map_nil]
    have : k - min k 10 + min k 10 = k := by omega
    rw [this, frameAddr_succ k hk]
  have hTnf : sT.num_frames_ = k + 1 := by rw [eT, eB]
  have hrun : runCalls opts world (ingestCalls (start + k) s) s = .ok sT := by
    simp only [ingestCalls, hinv.init, Bool.not_true, if_false, runCalls, exec, hB,
      Outcome.bind_ok, hT, hU]
  -- the invariant before the eviction step, lifetime flags as for `k`
  have hcells : ∀ j, j < k + 1 →
      sT.coreAt (frameAddr j) = some (start + j, decide (j = 0), decide (k ≤ j + 10)) := by
    intro j hj
    rw [hTcore, hBcore]
    by_cases hjk : j < k
    · rw [if_pos (by have := frameAddr_le j; omega), hinv.cells j hjk]
    · have : j = k := by omega
      subst this
      rw [frameAddr_succ j hk]
      have : j ≠ 0 := by omega
      simp [this]
  have hspare : sT.coreAt 1 = some (0, false, true) := by
    rw [hTcore, hBcore, if_pos (by omega), hinv.spare]
  by_cases hev : k + 1 > 10
  · -- eviction
    have hlo : min k 10 = 10 := by omega
    rw [hlo, List.range'_succ, List.map_cons] at hTfr
    have hhead := hcells (k - 10) (by omega)
    have hal : decide (k ≤ k - 10 + 10) = true := by simp; omega
    rw [hal] at hhead
    obtain ⟨f, hf, hfid, hfkey⟩ := deref_of_coreAt hhead
    obtain ⟨sF, hF, eF⟩ : ∃ sF, FreeFrames sT = .ok sF ∧ sF = _ :=
      ⟨_, FreeFrames_eq hTfr hf, rfl⟩
    have hFcore : ∀ a, sF.coreAt a = if a = frameAddr (k - 10)
        then some (start + (k - 10 : Nat), decide (k - 10 = 0), false) else sT.coreAt a := by
      intro a
      rw [eF]
      simp only [System.coreAt, List.getElem?_set]
      by_cases ha : frameAddr (k - 10) = a
      · subst ha
        have := coreAt_lt hhead
        simp [this, Obj.core, Frame.destructor, hfid, hfkey]
      · have : ¬ a = frameAddr (k - 10) := fun h => ha h.symm
        simp [ha, this]
    refine ⟨sF, ?_, ?_⟩
    · have : sT.num_frames_ > 10 := by rw [hTnf]; omega
      simp only [loopBody, hrun, Outcome.bind_ok, evictCalls, this, if_true, runCalls, exec, hF]
    · rw [eF]
      constructor
      · show sT.initialized_ = true
        rw [eT, eB]; exact hinv.init
      · show sT.num_frames_ = _
        rw [hTnf]; push_cast; rfl
      · show sT.images_list_ = _
        rw [eT, eB]; exact hinv.images
      · show sT.rectification_valid_ = _
        rw [eT, eB]; exact hinv.valid
      · show sT.map1_ = _
        rw [eT, eB]; exact hinv.map1
      · show sT.tracker_.isSome = true
        exact q.2.2 hBt
      · show sT.visualizer_.isSome = true
        rw [eT, eB]; exact hinv.visualizer
      · show (sT.heap.set _ _).length = _
        simp [hTlen]
      · show List.map frameAddr _ = _
        have h1 : min (k + 1) 10 = 10 := by omega
        have h2 : k + 1 - 10 = k - 10 + 1 := by omega
        rw [h1, h2]
      · show sT.keyframes_ = _
        rw [eT, eB]; exact hinv.keyframes
      · show sT.num_keyframes_ = _
        rw [eT, eB]; exact hinv.num_keyframes
      · show sT.current_keyframe_ = _
        rw [eT, eB]; exact hinv.current_keyframe
      · show sT.current_frame_ = _
        rw [q.fields.2, hBc]
        simp [frameAddr_succ k hk]
      · show sT.previous_frame_ = _
        rw [q.fields.1, hBp]
        simp
      · intro j hj
        rw [← eF, hFcore]
        by_cases hj10 : j = k - 10
        · subst hj10
          simp
          omega
        · have : frameAddr j ≠ frameAddr (k - 10) := fun h => hj10 (frameAddr_inj h)
          rw [if_neg this, hcells j hj]
          simp
          omega
      · rw [← eF, hFcore, if_neg (fun h => frameAddr_ne_one _ h.symm), hspare]
  · -- no eviction
    refine ⟨sT, ?_, ?_⟩
    · have : ¬ sT.num_frames_ > 10 := by rw [hTnf]; omega
      simp only [loopBody, hrun, Outcome.bind_ok, evictCalls, this, if_false, runCalls]
    · constructor
      · rw [eT, eB]; exact hinv.init
      · rw [hTnf]; push_cast; rfl
      · rw [eT, eB]; exact hinv.images
      · rw [eT, eB]; exact hinv.valid
      · rw [eT, eB]; exact hinv.map1
      · exact q.2.2 hBt
      · rw [eT, eB]; exact hinv.visualizer
      · exact hTlen
      · rw [hTfr]
        have h1 : min (k + 1) 10 = k + 1 := by omega
        have h2 : min k 10 = k := by omega
        rw [h1, h2]
        simp
      · rw [eT, eB]; exact hinv.keyframes
      · rw [eT, eB]; exact hinv.num_keyframes
      · rw [eT, eB]; exact hinv.current_keyframe
      · rw [q.fields.2, hBc]
        simp [frameAddr_succ k hk]
      · rw [q.fields.1, hBp]
        simp
      · intro j hj
        rw [hcells j hj]
        simp
        omega
      · exact hspare


theorem toSizeT_of_nonneg {i : Int} (h0 : 0 ≤ i) (h1 : i ≤ INT_MAX) : toSizeT i = i.toNat := by
  unfold toSizeT
  rw [Int.emod_eq_of_lt h0 (by unfold INT_MAX at h1; omega)]

theorem loopCond_iff {i : Int} {s : System} (h0 : 0 ≤ i) (h1 : i ≤ INT_MAX) :
    loopCond i s = decide (i < s.images_list_.length) := by
  unfold loopCond
  rw [toSizeT_of_nonneg h0 h1]
  congr 1
  rw [Int.toNat_lt h0]

theorem vecAt_some {α : Type} {l : List α} {i : Int} (h0 : 0 ≤ i) (h1 : i < l.length) :
    ∃ p, vecAt l i = some p ∧ p ∈ l := by
  have hlt : i.toNat < l.length := by omega
  refine ⟨l[i.toNat], ?_, List.getElem_mem hlt⟩
  simp [vecAt, h0, List.getElem?_eq_getElem hlt]

theorem loop_from_inv {opts : Options} {world : World} {cm : CameraModel}
    {imgs : List String} {start : Int} (hL : 0 < opts.PYRAMID_LEVELS) (hstart : 0 ≤ start)
    (hn : (imgs.length : Int) ≤ INT_MAX)
    (hload : ∀ p ∈ imgs, (readPyramid opts world cm.valid cm.map1 p).isSome) :
    ∀ (r k : Nat) (s : System), LoopInv cm imgs start k s → 1 ≤ k →
      start + k + r ≤ imgs.length →
      ∃ s', loopIterations opts world r (start + k) s = .ok s' ∧
        LoopInv cm imgs start (k + r) s' := by
  intro r
  induction r with
  | zero =>
    intro k s hinv _ _
    exact ⟨s, rfl, hinv⟩
  | succ r ih =>
    intro k s hinv hk hle
    have hcond : loopCond (start + k) s = true := by
      rw [loopCond_iff (by omega) (by omega), hinv.images]
      simp
      omega
    obtain ⟨path, hpath, hmem⟩ := @vecAt_some _ imgs (start + k) (by omega) (by omega)
    obtain ⟨s1, h1, hinv1⟩ := @loop_step opts world cm imgs start k s path hinv hk hL hpath
      (hload path hmem) (by omega)
    have hincr : incrInt (start + k) = some (start + (k + 1 : Nat)) := by
      rw [incrInt_of_lt (by omega)]
      push_cast
      congr 1
      ring
    obtain ⟨s', h', hinv'⟩ := ih (k + 1) s1 hinv1 (by omega) (by push_cast; omega)
    refine ⟨s', ?_, ?_⟩
    · simp only [loopIterations, hcond, if_true, h1, Outcome.bind_ok, hincr]
      exact h'
    · have : k + (r + 1) = k + 1 + r := by omega
      rw [this]
      exact hinv'

theorem loop_iterations {opts : Options} {world : World} {cm : CameraModel} {s0 : System}
    {start : Int} (hpre : PreLoop s0) (hcm : s0.camera_model_ = some cm)
    (hL : 0 < opts.PYRAMID_LEVELS) (hstart : 0 ≤ start)
    (hn : (s0.images_list_.length : Int) ≤ INT_MAX)
    (hload : ∀ p ∈ s0.images_list_, (readPyramid opts world cm.valid cm.map1 p).isSome)
    (k : Nat) (hk1 : 1 ≤ k) (hk : start + k ≤ s0.images_list_.length) :
    ∃ sk, loopIterations opts world k start s0 = .ok sk ∧
      LoopInv cm s0.images_list_ start k sk := by
  obtain ⟨r, rfl⟩ : ∃ r, k = r + 1 := ⟨k - 1, by omega⟩
  have hcond : loopCond start s0 = true := by
    rw [loopCond_iff hstart (by omega)]
    simp
    omega
  obtain ⟨path, hpath, hmem⟩ := @vecAt_some _ s0.images_list_ start hstart (by omega)
  obtain ⟨s1, h1, hinv1⟩ := @first_iteration opts world s0 cm start path hpre hcm hL hpath
    (hload path hmem)
  have hincr : incrInt start = some (start + (1 : Nat)) := by
    rw [incrInt_of_lt (by omega)]
    rfl
  obtain ⟨s', h', hinv'⟩ := loop_from_inv hL hstart hn hload r 1 s1 hinv1 (le_refl 1)
    (by push_cast at hk ⊢; omega)
  refine ⟨s', ?_, ?_⟩
  · simp only [loopIterations, hcond, if_true, h1, Outcome.bind_ok, hincr]
    exact h'
  · have : r + 1 = 1 + r := by omega
    rw [this]
    exact hinv'

theorem loopIterations_done {opts : Options} {world : World} {i : Int} {s : System}
    (h : loopCond i s = false) (r : Nat) : loopIterations opts world r i s = .ok s := by
  cases r with
  | zero => rfl
  | succ r => simp [loopIterations, h]


theorem loop_saturates {opts : Options} {world : World} {cm : CameraModel}
    {imgs : List String} {start : Int} (hL : 0 < opts.PYRAMID_LEVELS) (hstart : 0 ≤ start)
    (hn : (imgs.length : Int) ≤ INT_MAX)
    (hload : ∀ p ∈ imgs, (readPyramid opts world cm.valid cm.map1 p).isSome) :
    ∀ (m r k : Nat) (s : System), LoopInv cm imgs start k s → 1 ≤ k →
      start + k + m = imgs.length → m ≤ r →
      loopIterations opts world r (start + k) s = loopIterations opts world m (start + k) s := by
  intro m
  induction m with
  | zero =>
    intro r k s hinv _ hle _
    have hcond : loopCond (start + k) s = false := by
      rw [loopCond_iff (by omega) (by omega), hinv.images]
      simp
      omega
    rw [loopIterations_done hcond, loopIterations_done hcond]
  | succ m ih =>
    intro r k s hinv hk hle hr
    obtain ⟨r, rfl⟩ : ∃ r', r = r' + 1 := ⟨r - 1, by omega⟩
    have hcond : loopCond (start + k) s = true := by
      rw [loopCond_iff (by omega) (by omega), hinv.images]
      simp
      omega
    obtain ⟨path, hpath, hmem⟩ := @vecAt_some _ imgs (start + k) (by omega) (by omega)
    obtain ⟨s1, h1, hinv1⟩ := @loop_step opts world cm imgs start k s path hinv hk hL hpath
      (hload path hmem) (by omega)
    have hincr : incrInt (start + k) = some (start + (k + 1 : Nat)) := by
      rw [incrInt_of_lt (by omega)]
      push_cast
      congr 1
      ring
    simp only [loopIterations, hcond, if_true, h1, Outcome.bind_ok, hincr]
    exact ih r (k + 1) s1 hinv1 (by omega) (by push_cast at hle ⊢; omega) (by omega)

theorem loop_finishes {opts : Options} {world : World} {cm : CameraModel} {s0 : System}
    {start : Int} (hpre : PreLoop s0) (hcm : s0.camera_model_ = some cm)
    (hL : 0 < opts.PYRAMID_LEVELS) (hstart : 0 ≤ start)
    (hlt : start < s0.images_list_.length)
    (hn : (s0.images_list_.length : Int) ≤ INT_MAX)
    (hload : ∀ p ∈ s0.images_list_, (readPyramid opts world cm.valid cm.map1 p).isSome)
    (r : Nat) (hr : (s0.images_list_.length - start).toNat ≤ r) :
    loopIterations opts world r start s0
      = loopIterations opts world (s0.images_list_.length - start).toNat start s0 := by
  obtain ⟨m, hm⟩ : ∃ m, (s0.images_list_.length - start).toNat = m + 1 :=
    ⟨(s0.images_list_.length - start).toNat - 1, by omega⟩
  obtain ⟨r, rfl⟩ : ∃ r', r = r' + 1 := ⟨r - 1, by omega⟩
  rw [hm]
  have hcond : loopCond start s0 = true := by
    rw [loopCond_iff hstart (by omega)]
    simp
    omega
  obtain ⟨path, hpath, hmem⟩ := @vecAt_some _ s0.images_list_ start hstart (by omega)
  obtain ⟨s1, h1, hinv1⟩ := @first_iteration opts world s0 cm start path hpre hcm hL hpath
    (hload path hmem)
  have hincr : incrInt start = some (start + (1 : Nat)) := by
    rw [incrInt_of_lt (by omega)]
    rfl
  simp only [loopIterations, hcond, if_true, h1, Outcome.bind_ok, hincr]
  exact loop_saturates hL hstart hn hload m r 1 s1 hinv1 (le_refl 1) (by push_cast; omega)
    (by omega)

/-- C9: after `k ≥ 1` completed iterations of the loop of `main` the window
`frames_` holds exactly the `min k 10` frames ingested last, alive and in
ingestion order (their ids are `start + (k - min k 10)`, ..., `start + k - 1`);
`FreeFrames` always removes the first entry only and keeps the rest in order;
and once 11 iterations are complete the frame ingested first is no longer in
the window. -/
theorem window_holds_latest_frames (opts : Options) (world : World) (cm : CameraModel)
    (s0 : System) (start : Int) (k : Nat) (hpre : PreLoop s0)
    (hcm : s0.camera_model_ = some cm) (hL : 0 < opts.PYRAMID_LEVELS) (hstart : 0 ≤ start)
    (hn : (s0.images_list_.length : Int) ≤ INT_MAX)
    (hload : ∀ p ∈ s0.images_list_, (readPyramid opts world cm.valid cm.map1 p).isSome)
    (hk1 : 1 ≤ k) (hk : start + k ≤ s0.images_list_.length) :
    ∃ sk, loopIterations opts world k start s0 = .ok sk ∧
      sk.frames_.length = min k 10 ∧
      (sk.frames_.map fun a => (sk.deref (some a)).map fun f => f.idFrame_)
        = (List.range' (k - min k 10) (min k 10)).map (fun (j : Nat) => some (start + (j : Int))) ∧
      (∀ s s', FreeFrames s = .ok s' → s'.frames_ = s.frames_.tail) ∧
      (11 ≤ k → ∀ s1, loopIterations opts world 1 start s0 = .ok s1 →
        s1.frames_.length = 1 ∧ ∀ a ∈ s1.frames_, a ∉ sk.frames_) := by
  obtain ⟨sk, hrun, hinv⟩ := loop_iterations hpre hcm hL hstart hn hload k hk1 hk
  refine ⟨sk, hrun, ?_, ?_, ?_, ?_⟩
  · rw [hinv.frames]
    simp
  · rw [hinv.frames, List.map_map]
    apply List.map_congr_left
    intro j hj
    rw [List.mem_range'_1] at hj
    have hc := hinv.cells j (by omega)
    have hal : decide (k ≤ j + 10) = true := by simp; omega
    rw [hal] at hc
    obtain ⟨f, hf, hid, _⟩ := deref_of_coreAt hc
    simp [hf, hid]
  · intro s s' h
    obtain ⟨a, rest, f, hfr, _, rfl⟩ := FreeFrames_ok h
    simp [hfr]
  · intro h11 s1 h1
    obtain ⟨s1', h1', hinv1⟩ := loop_iterations hpre hcm hL hstart hn hload 1 (le_refl 1)
      (by push_cast at hk ⊢; omega)
    rw [h1] at h1'
    simp only [Outcome.ok.injEq] at h1'
    subst h1'
    rw [hinv1.frames, hinv.frames]
    refine ⟨by simp, ?_⟩
    intro a ha
    simp only [List.mem_map, List.mem_range'_1] at ha ⊢
    obtain ⟨j, hj, rfl⟩ := ha
    rintro ⟨j', hj', he⟩
    have := frameAddr_inj he
    omega

/-- C4: for a dataset of `n ≥ 1` readable images and a start index
`0 ≤ start < n`, the first iteration of the loop of `main` ingests the frame
with id `start` and promotes it to keyframe, and the loop ends after `n - start`
iterations in a state where `keyframes_` holds exactly that frame,
`num_keyframes_ = 1` and no other frame on the free store has `isKeyFrame_`
set. -/
theorem first_frame_is_sole_keyframe (opts : Options) (world : World) (cm : CameraModel)
    (s0 : System) (start : Int) (hpre : PreLoop s0) (hcm : s0.camera_model_ = some cm)
    (hL : 0 < opts.PYRAMID_LEVELS) (hstart : 0 ≤ start)
    (hlt : start < s0.images_list_.length)
    (hn : (s0.images_list_.length : Int) ≤ INT_MAX)
    (hload : ∀ p ∈ s0.images_list_, (readPyramid opts world cm.valid cm.map1 p).isSome) :
    ∃ s1 sN a0 f0,
      loopIterations opts world 1 start s0 = .ok s1 ∧
      s1.frames_ = [a0] ∧ s1.deref (some a0) = some f0 ∧ f0.idFrame_ = start ∧
      f0.isKeyFrame_ = true ∧ s1.keyframes_ = [a0] ∧
      (∀ r, (s0.images_list_.length - start).toNat ≤ r →
        loopIterations opts world r start s0 = .ok sN) ∧
      loopCond (start + (s0.images_list_.length - start).toNat) sN = false ∧
      sN.keyframes_ = [a0] ∧ sN.num_keyframes_ = 1 ∧ sN.current_keyframe_ = some a0 ∧
      (∀ a o, sN.heap[a]? = some o → (o.val.isKeyFrame_ = true ↔ a = a0)) ∧
      (∃ o, sN.heap[a0]? = some o ∧ o.val.idFrame_ = start) := by
  obtain ⟨s1, h1, hinv1⟩ := loop_iterations hpre hcm hL hstart hn hload 1 (le_refl 1)
    (by push_cast; omega)
  obtain ⟨sN, hN, hinvN⟩ := loop_iterations hpre hcm hL hstart hn hload
    (s0.images_list_.length - start).toNat (by omega) (by omega)
  have hc1 := hinv1.cells 0 (by omega)
  simp only [frameAddr, if_true, decide_True] at hc1
  have : decide (1 ≤ 0 + 10) = true := by decide
  rw [this] at hc1
  obtain ⟨f0, hf0, hid0, hkey0⟩ := deref_of_coreAt hc1
  refine ⟨s1, sN, 0, f0, h1, ?_, hf0, by simpa using hid0, hkey0, hinv1.keyframes, ?_, ?_,
    hinvN.keyframes, hinvN.num_keyframes, hinvN.current_keyframe, ?_, ?_⟩
  · rw [hinv1.frames]
    rfl
  · intro r hr
    rw [loop_finishes hpre hcm hL hstart hlt hn hload r hr, hN]
  · rw [loopCond_iff (by omega) (by omega), hinvN.images]
    simp
    omega
  · intro a o ho
    have hlen := hinvN.heap_length
    have halt : a < sN.heap.length := by
      by_contra hc
      rw [List.getElem?_eq_none (by omega)] at ho
      simp at ho
    by_cases ha1 : a = 1
    · subst ha1
      have := hinvN.spare
      simp only [System.coreAt, ho, Option.map_some', Obj.core, Option.some.injEq,
        Prod.mk.injEq] at this
      simp [this.2.1]
    · by_cases ha0 : a = 0
      · subst ha0
        have hc := hinvN.cells 0 (by omega)
        simp only [frameAddr, if_true] at hc
        simp only [System.coreAt, ho, Option.map_some', Obj.core, Option.some.injEq,
          Prod.mk.injEq] at hc
        simp [hc.2.1]
      · have hc := hinvN.cells (a - 1) (by omega)
        rw [frameAddr_succ (a - 1) (by omega)] at hc
        have he : a - 1 + 1 = a := by omega
        rw [he] at hc
        simp only [System.coreAt, ho, Option.map_some', Obj.core, Option.some.injEq,
          Prod.mk.injEq] at hc
        rw [hc.2.1]
        simp
        omega
  · have hc := hinvN.cells 0 (by omega)
    simp only [frameAddr, if_true] at hc
    unfold System.coreAt at hc
    cases ho : sN.heap[0]? with
    | none => simp [ho] at hc
    | some o =>
      simp only [ho, Option.map_some', Obj.core, Option.some.injEq, Prod.mk.injEq] at hc
      exact ⟨o, rfl, by simpa using hc.1⟩


/-- Witness for C4: the example run, 15 images and start index 0. -/
theorem first_frame_is_sole_keyframe_witness :
    ∃ s1 sN a0 f0,
      loopIterations exampleOptions exampleWorld 1 0 exampleEntry = .ok s1 ∧
      s1.frames_ = [a0] ∧ s1.deref (some a0) = some f0 ∧ f0.idFrame_ = 0 ∧
      f0.isKeyFrame_ = true ∧ s1.keyframes_ = [a0] ∧
      (∀ r, ((exampleEntry.images_list_.length : Int) - 0).toNat ≤ r →
        loopIterations exampleOptions exampleWorld r 0 exampleEntry = .ok sN) ∧
      loopCond (0 + ((exampleEntry.images_list_.length : Int) - 0).toNat) sN = false ∧
      sN.keyframes_ = [a0] ∧ sN.num_keyframes_ = 1 ∧ sN.current_keyframe_ = some a0 ∧
      (∀ a o, sN.heap[a]? = some o → (o.val.isKeyFrame_ = true ↔ a = a0)) ∧
      (∃ o, sN.heap[a0]? = some o ∧ o.val.idFrame_ = 0) :=
  first_frame_is_sole_keyframe exampleOptions exampleWorld exampleCamera exampleEntry 0
    exampleEntry_preLoop rfl (by decide) (by decide) (by decide) (by decide)
    exampleDataset_loads

/-- Witness for C9: 12 iterations of the example run. -/
theorem window_holds_latest_frames_witness :
    ∃ sk, loopIterations exampleOptions exampleWorld 12 0 exampleEntry = .ok sk ∧
      sk.frames_.length = min 12 10 ∧
      (sk.frames_.map fun a => (sk.deref (some a)).map fun f => f.idFrame_)
        = (List.range' (12 - min 12 10) (min 12 10)).map
            (fun (j : Nat) => some ((0 : Int) + (j : Int))) ∧
      (∀ s s', FreeFrames s = .ok s' → s'.frames_ = s.frames_.tail) ∧
      (11 ≤ 12 → ∀ s1, loopIterations exampleOptions exampleWorld 1 0 exampleEntry = .ok s1 →
        s1.frames_.length = 1 ∧ ∀ a ∈ s1.frames_, a ∉ sk.frames_) :=
  window_holds_latest_frames exampleOptions exampleWorld exampleCamera exampleEntry 0 12
    exampleEntry_preLoop rfl (by decide) (by decide) (by decide) exampleDataset_loads
    (by decide) (by decide)


/-! ## The image pyramid of `AddFrame` -/

theorem resize_some {src m : Mat} (h : resize src = some m) :
    m = { cols := cvRoundHalf src.cols, rows := cvRoundHalf src.rows } := by
  unfold resize at h
  split at h
  · simp at h
  · simp only at h
    split at h
    · simp at h
    · simpa using h.symm

theorem half_level (w i : Nat) (hw : w % 16 = 0) (hi : 1 ≤ i) (hi5 : i ≤ 4) :
    cvRoundHalf (w / 2 ^ (i - 1)) = w / 2 ^ i := by
  have key : ∀ m : Nat, m % 2 = 0 → cvRoundHalf m = m / 2 := fun m hm => by simp [cvRoundHalf, hm]
  interval_cases i
  · rw [key _ (by simp; omega)]; simp
  · rw [key _ (by simp; omega)]; simp; omega
  · rw [key _ (by simp; omega)]; simp; omega
  · rw [key _ (by simp; omega)]; simp; omega

theorem pyramidLoop_levels (w h : Nat) (hw : w % 16 = 0) (hh : h % 16 = 0) :
    ∀ (n i : Nat) (image_ r : List Mat), 1 ≤ i → i + n = image_.length → i + n ≤ 5 →
      (∀ k, k < i → image_[k]? = some { cols := w / 2 ^ k, rows := h / 2 ^ k }) →
      pyramidLoop n i image_ = some r →
      r.length = image_.length ∧
        ∀ k, k < i + n → r[k]? = some { cols := w / 2 ^ k, rows := h / 2 ^ k } := by
  intro n
  induction n with
  | zero =>
    intro i image_ r _ _ _ hk hr
    simp only [pyramidLoop, Option.some.injEq] at hr
    subst hr
    exact ⟨rfl, by simpa using hk⟩
  | succ n ih =>
    intro i image_ r hi hlen h5 hk hr
    simp only [pyramidLoop] at hr
    have hprev : image_.getD (i - 1) { cols := 0, rows := 0 }
        = { cols := w / 2 ^ (i - 1), rows := h / 2 ^ (i - 1) } := by
      have := hk (i - 1) (by omega)
      simp [List.getD, this]
    rw [hprev] at hr
    cases hres : resize { cols := w / 2 ^ (i - 1), rows := h / 2 ^ (i - 1) } with
    | none => simp [hres] at hr
    | some m =>
      simp only [hres] at hr
      have hm := resize_some hres
      simp only [half_level w i hw hi (by omega), half_level h i hh hi (by omega)] at hm
      have := ih (i + 1) (image_.set i m) r (by omega) (by simp; omega) (by omega) ?_ hr
      · simpa [Nat.add_assoc, Nat.add_comm 1 n] using this
      · intro k hk1
        rw [List.getElem?_set]
        by_cases hki : i = k
        · subst hki
          simp [hm]
          omega
        · simp [hki]
          exact hk k (by omega)

theorem resize_level (w h i : Nat) (hw : w % 16 = 0) (hh : h % 16 = 0) (hw0 : 0 < w)
    (hh0 : 0 < h) (hi : 1 ≤ i) (hi4 : i ≤ 4) :
    resize { cols := w / 2 ^ (i - 1), rows := h / 2 ^ (i - 1) }
      = some { cols := w / 2 ^ i, rows := h / 2 ^ i } := by
  have e1 := half_level w i hw hi hi4
  have e2 := half_level h i hh hi hi4
  have p1 : 0 < w / 2 ^ (i - 1) := by interval_cases i <;> simp <;> omega
  have p2 : 0 < h / 2 ^ (i - 1) := by interval_cases i <;> simp <;> omega
  have q1 : 0 < w / 2 ^ i := by interval_cases i <;> simp <;> omega
  have q2 : 0 < h / 2 ^ i := by interval_cases i <;> simp <;> omega
  simp only [resize, Mat.empty, e1, e2]
  simp [Nat.pos_iff_ne_zero.mp p1, Nat.pos_iff_ne_zero.mp p2, Nat.pos_iff_ne_zero.mp q1,
    Nat.pos_iff_ne_zero.mp q2]

theorem pyramidLoop_returns (w h : Nat) (hw : w % 16 = 0) (hh : h % 16 = 0) (hw0 : 0 < w)
    (hh0 : 0 < h) :
    ∀ (n i : Nat) (image_ : List Mat), 1 ≤ i → i + n = image_.length → i + n ≤ 5 →
      (∀ k, k < i → image_[k]? = some { cols := w / 2 ^ k, rows := h / 2 ^ k }) →
      ∃ r, pyramidLoop n i image_ = some r := by
  intro n
  induction n with
  | zero => intro i image_ _ _ _ _; exact ⟨image_, rfl⟩
  | succ n ih =>
    intro i image_ hi hlen h5 hk
    have hprev : image_.getD (i - 1) { cols := 0, rows := 0 }
        = { cols := w / 2 ^ (i - 1), rows := h / 2 ^ (i - 1) } := by
      have := hk (i - 1) (by omega)
      simp [List.getD, this]
    simp only [pyramidLoop, hprev, resize_level w h i hw hh hw0 hh0 hi (by omega)]
    apply ih (i + 1) _ (by omega) (by simp; omega) (by omega)
    intro k hk1
    rw [List.getElem?_set]
    by_cases hki : i = k
    · subst hki
      simp
      omega
    · simp [hki]
      exact hk k (by omega)

theorem pyramidLoop_zero : ∀ (n i : Nat) (image_ r : List Mat), 1 ≤ i →
    pyramidLoop n i image_ = some r → r[0]? = image_[0]? ∧ r.length = image_.length := by
  intro n
  induction n with
  | zero =>
    intro i image_ r _ hr
    simp only [pyramidLoop, Option.some.injEq] at hr
    subst hr
    exact ⟨rfl, rfl⟩
  | succ n ih =>
    intro i image_ r hi hr
    simp only [pyramidLoop] at hr
    split at hr
    · simp at hr
    · rename_i m _
      have := ih (i + 1) _ r (by omega) hr
      rw [this.1, this.2, List.getElem?_set]
      have : i ≠ 0 := by omega
      simp [this]

/-- C7: with at most 5 pyramid levels, every frame that `AddFrame` ingests has a
pyramid of exactly `PYRAMID_LEVELS` images, and when its level-0 image has a
width and a height that are multiples of 16, level `k` has width `w / 2 ^ k` and
height `h / 2 ^ k` for every `k` below `PYRAMID_LEVELS`.  Moreover `AddFrame`
does ingest the frame whenever the index is in the dataset, there is at least
one level and the level-0 image is non-empty with such dimensions. -/
theorem AddFrame_pyramid_levels (opts : Options) (world : World) (id : Int) (s : System)
    (hL : opts.PYRAMID_LEVELS ≤ 5) :
    (∀ s', AddFrame opts world id s = .ok s' →
      ∃ f, s'.deref s'.current_frame_ = some f ∧ s'.frames_.getLast? = s'.current_frame_ ∧
        f.idFrame_ = id ∧ f.image_.length = opts.PYRAMID_LEVELS ∧
        ∀ m0, f.image_[0]? = some m0 → m0.cols % 16 = 0 → m0.rows % 16 = 0 →
          ∀ k, k < opts.PYRAMID_LEVELS →
            f.image_[k]? = some { cols := m0.cols / 2 ^ k, rows := m0.rows / 2 ^ k }) ∧
    (∀ path m0, vecAt s.images_list_ id = some path →
      (if s.rectification_valid_ then world.remap (world.imread path) s.map1_
       else some (world.imread path)) = some m0 →
      0 < opts.PYRAMID_LEVELS → s.num_frames_ < INT_MAX →
      m0.cols % 16 = 0 → m0.rows % 16 = 0 → 0 < m0.cols → 0 < m0.rows →
      ∃ s', AddFrame opts world id s = .ok s') := by
  constructor
  · intro s' h
    obtain ⟨path, image_, hpath, hL0, himg, hlt, rfl⟩ := AddFrame_ok h
    refine ⟨{ Frame.new opts with idFrame_ := id, image_ := image_ }, ?_, ?_, rfl, ?_, ?_⟩
    · simp [System.deref]
    · simp
    · unfold readPyramid at himg
      split at himg
      · simp at himg
      · have := (pyramidLoop_zero _ _ _ _ (le_refl 1) himg).2
        simpa [Frame.new] using this
    · intro m0 hm0 hc hr k hk
      unfold readPyramid at himg
      split at himg
      · simp at himg
      · rename_i img0 _
        have hz := pyramidLoop_zero _ _ _ _ (le_refl 1) himg
        have h0 : ((Frame.new opts).image_.set 0 img0)[0]? = some img0 := by
          simp [Frame.new, List.getElem?_set]
          omega
        simp only at hm0
        rw [hz.1, h0] at hm0
        simp only [Option.some.injEq] at hm0
        subst hm0
        have := pyramidLoop_levels img0.cols img0.rows hc hr (opts.PYRAMID_LEVELS - 1) 1
          ((Frame.new opts).image_.set 0 img0) image_ (le_refl 1)
          (by simp [Frame.new]; omega) (by omega)
          (by intro k hk; have : k = 0 := by omega
              subst this; simpa using h0) himg
        exact this.2 k (by omega)
  · intro path m0 hpath hm0 hL0 hlt hc hr hc0 hr0
    have h0 : ((Frame.new opts).image_.set 0 m0)[0]? = some m0 := by
      simp [Frame.new, List.getElem?_set]
      omega
    obtain ⟨r, hr⟩ := pyramidLoop_returns m0.cols m0.rows hc hr hc0 hr0
      (opts.PYRAMID_LEVELS - 1) 1 ((Frame.new opts).image_.set 0 m0) (le_refl 1)
      (by simp [Frame.new]; omega) (by omega)
      (by intro k hk; have : k = 0 := by omega
          subst this; simpa using h0)
    have hrp : readPyramid opts world s.rectification_valid_ s.map1_ path = some r := by
      simp only [readPyramid, hm0]
      exact hr
    exact ⟨_, AddFrame_eq hpath (by omega) hrp hlt⟩

/-- Witness for C7: the first frame of the example run, a 640 x 480 image; its
fifth level is 40 x 30. -/
theorem AddFrame_pyramid_levels_witness :
    ∃ f, (afterCalls [.AddFrame 0]).deref (afterCalls [.AddFrame 0]).current_frame_ = some f ∧
      f.image_.length = 5 ∧ f.image_[4]? = some { cols := 40, rows := 30 } := by
  obtain ⟨f, hf, _, _, hlen, hlev⟩ :=
    (AddFrame_pyramid_levels exampleOptions exampleWorld 0 exampleEntry (by decide)).1
      (afterCalls [.AddFrame 0]) (by decide)
  have h0 : ((afterCalls [.AddFrame 0]).deref (afterCalls [.AddFrame 0]).current_frame_).map
      (fun g => g.image_[0]?) = some (some { cols := 640, rows := 480 }) := by decide
  rw [hf] at h0
  simp only [Option.map_some', Option.some.injEq] at h0
  exact ⟨f, hf, hlen, hlev _ h0 (by decide) (by decide) 4 (by decide)⟩


/-! ## The dataset listing -/

/-- C6: on a directory that can be opened and whose listing has at least the
two entries `.` and `..`, `AddListImages` ends the process exactly when fewer
than 15 names remain after sorting the listing and dropping its first two
entries; otherwise it returns with `images_list_` equal to the sorted listing
without its first two entries (sorted, at least 15 long) and with
`ground_truth_path_` equal to the given path. -/
theorem AddListImages_accepts_iff (world : World) (path ground_truth_path : String)
    (s : System) (names : List String) (hdir : world.readdir path = some names)
    (h2 : 2 ≤ names.length) :
    ∃ sorted : List String,
      sorted.Perm (names.map fun d_name => path ++ d_name) ∧
      List.Sorted (· ≤ ·) sorted ∧
      (AddListImages world path ground_truth_path s = .exit 0 s ↔
        (sorted.drop 2).length < 15) ∧
      ((∃ s', AddListImages world path ground_truth_path s = .ok s') ↔
        ¬ (sorted.drop 2).length < 15) ∧
      ∀ s', AddListImages world path ground_truth_path s = .ok s' →
        s'.images_list_ = sorted.drop 2 ∧ List.Sorted (· ≤ ·) s'.images_list_ ∧
        15 ≤ s'.images_list_.length ∧ s'.ground_truth_path_ = ground_truth_path ∧
        s' = { s with ground_truth_path_ := ground_truth_path,
                      images_list_ := sorted.drop 2 } := by
  refine ⟨List.insertionSort (· ≤ ·) (names.map fun d_name => path ++ d_name),
    List.perm_insertionSort _ _, List.sorted_insertionSort _ _, ?_, ?_, ?_⟩
  · have hlen : ¬ (List.insertionSort (· ≤ ·) (names.map fun d_name => path ++ d_name)).length < 2 := by
      rw [List.length_insertionSort]
      simp
      omega
    simp only [AddListImages, hdir, hlen, if_false]
    split <;> simp_all
  · have hlen : ¬ (List.insertionSort (· ≤ ·) (names.map fun d_name => path ++ d_name)).length < 2 := by
      rw [List.length_insertionSort]
      simp
      omega
    simp only [AddListImages, hdir, hlen, if_false]
    split <;> simp_all
  · intro s' h
    have hlen : ¬ (List.insertionSort (· ≤ ·) (names.map fun d_name => path ++ d_name)).length < 2 := by
      rw [List.length_insertionSort]
      simp
      omega
    simp only [AddListImages, hdir, hlen, if_false] at h
    split at h
    · simp at h
    · rename_i h15
      simp only [Outcome.ok.injEq] at h
      subst h
      refine ⟨rfl, ?_, by simpa using h15, rfl, rfl⟩
      exact (List.sorted_insertionSort _ _).sublist (List.drop_sublist 2 _)


/-- Witness for C6: the example directory, 17 names. -/
theorem AddListImages_accepts_iff_witness :
    ∃ sorted : List String,
      sorted.Perm (exampleListing.map fun d_name => "data/" ++ d_name) ∧
      List.Sorted (· ≤ ·) sorted ∧
      (AddListImages exampleWorld "data/" "" (System.new 0 ⟨0, 0, 0, 0⟩)
        = .exit 0 (System.new 0 ⟨0, 0, 0, 0⟩) ↔ (sorted.drop 2).length < 15) ∧
      ((∃ s', AddListImages exampleWorld "data/" "" (System.new 0 ⟨0, 0, 0, 0⟩) = .ok s') ↔
        ¬ (sorted.drop 2).length < 15) ∧
      ∀ s', AddListImages exampleWorld "data/" "" (System.new 0 ⟨0, 0, 0, 0⟩) = .ok s' →
        s'.images_list_ = sorted.drop 2 ∧ List.Sorted (· ≤ ·) s'.images_list_ ∧
        15 ≤ s'.images_list_.length ∧ s'.ground_truth_path_ = "" ∧
        s' = { System.new 0 ⟨0, 0, 0, 0⟩ with ground_truth_path_ := "",
                                               images_list_ := sorted.drop 2 } :=
  AddListImages_accepts_iff exampleWorld "data/" "" (System.new 0 ⟨0, 0, 0, 0⟩) exampleListing
    rfl (by decide)


/-! ## Gradient extraction and candidate selection per frame -/

theorem ApplyGradient_counts {s s' : System} {a : Nat} (hc : CountOK s)
    (hg : s.gflag a = false) (h : Tracker.ApplyGradient s (some a) = .ok s') :
    CountOK s' ∧ (∀ x, x ≠ a → s'.gflag x = s.gflag x) ∧ (∀ x, s'.pflag x = s.pflag x) := by
  obtain ⟨t, a', f, ht, ha, hf, e⟩ := ApplyGradient_ok h
  simp only [Option.some.injEq] at ha
  subst ha
  have hcell := deref_some hf
  have hlt : a < s.heap.length := by
    by_contra hcon
    rw [List.getElem?_eq_none (by omega)] at hcell
    simp at hcell
  have hgf : ∀ x, s'.gflag x = (decide (x = a) || s.gflag x) := by
    intro x
    rw [e]
    simp only [System.gflag, System.store, List.getElem?_set]
    by_cases hx : a = x
    · subst hx; simp [hlt]
    · have : ¬ x = a := fun h => hx h.symm
      simp [hx, this]
  have hpf : ∀ x, s'.pflag x = s.pflag x := by
    intro x
    rw [e]
    simp only [System.pflag, System.store, List.getElem?_set]
    by_cases hx : a = x
    · subst hx; simp [hlt, hcell]
    · simp [hx]
  refine ⟨?_, ?_, hpf⟩
  · intro x
    have hcx := hc x
    constructor
    · rw [hgf x]
      have ht' : s'.tracker_ = some { t with gradient_calls := t.gradient_calls ++ [a] } := by
        rw [e]
      simp only [System.gradientCalls, ht, ht', List.count_append] at hcx ⊢
      by_cases hx : x = a
      · subst hx
        rw [hg] at hcx
        simp at hcx ⊢
        simp [hcx]
      · have : ¬ a = x := fun h => hx h.symm
        simp [hx, this, List.count_cons, hcx.1]
    · rw [hpf x]
      have ht' : s'.tracker_ = some { t with gradient_calls := t.gradient_calls ++ [a] } := by
        rw [e]
      simpa [System.pointsCalls, ht, ht'] using hcx.2
  · intro x hx
    rw [hgf x]
    simp [hx]


theorem ObtainAllPoints_counts {world : World} {s s' : System} {a : Nat} (hc : CountOK s)
    (hp : s.pflag a = false) (h : Tracker.ObtainAllPoints world s (some a) = .ok s') :
    CountOK s' ∧ (∀ x, x ≠ a → s'.pflag x = s.pflag x) ∧ (∀ x, s'.gflag x = s.gflag x) := by
  obtain ⟨t, a', f, ht, ha, hf, e⟩ := ObtainAllPoints_ok h
  simp only [Option.some.injEq] at ha
  subst ha
  have hcell := deref_some hf
  have hlt : a < s.heap.length := by
    by_contra hcon
    rw [List.getElem?_eq_none (by omega)] at hcell
    simp at hcell
  have hpf : ∀ x, s'.pflag x = (decide (x = a) || s.pflag x) := by
    intro x
    rw [e]
    simp only [System.pflag, System.store, List.getElem?_set]
    by_cases hx : a = x
    · subst hx; simp [hlt]
    · have : ¬ x = a := fun h => hx h.symm
      simp [hx, this]
  have hgf : ∀ x, s'.gflag x = s.gflag x := by
    intro x
    rw [e]
    simp only [System.gflag, System.store, List.getElem?_set]
    by_cases hx : a = x
    · subst hx; simp [hlt, hcell]
    · simp [hx]
  have ht' : s'.tracker_ = some { t with points_calls := t.points_calls ++ [a] } := by
    rw [e]
  refine ⟨?_, ?_, hgf⟩
  · intro x
    have hcx := hc x
    constructor
    · rw [hgf x]
      simpa [System.gradientCalls, ht, ht'] using hcx.1
    · rw [hpf x]
      simp only [System.pointsCalls, ht, ht', List.count_append] at hcx ⊢
      by_cases hx : x = a
      · subst hx
        rw [hp] at hcx
        simp at hcx ⊢
        simp [hcx]
      · have : ¬ a = x := fun h => hx h.symm
        simp [hx, this, List.count_cons, hcx.2]
  · intro x hx
    rw [hpf x]
    simp [hx]

theorem gflag_of_deref {s : System} {a : Nat} {f : Frame} (h : s.deref (some a) = some f) :
    s.gflag a = f.obtained_gradients_ ∧ s.pflag a = f.obtained_candidatePoints_ := by
  simp [System.gflag, System.pflag, deref_some h]

theorem Quiet.alive {s s' : System} (q : Quiet s s')
    (h : ∀ (a : Nat) (o : Obj), s.heap[a]? = some o → o.alive = true) :
    ∀ (a : Nat) (o : Obj), s'.heap[a]? = some o → o.alive = true := by
  intro a o ho
  have hc := coreAt_quiet q a
  simp only [System.coreAt, ho, Option.map_some'] at hc
  cases ho' : s.heap[a]? with
  | none => simp [ho'] at hc
  | some o' =>
    simp only [ho', Option.map_some', Option.some.injEq, Obj.core, Prod.mk.injEq] at hc
    rw [hc.2.2]
    exact h a o' ho'

theorem Quiet.heap_length {s s' : System} (q : Quiet s s') : s'.heap.length = s.heap.length := by
  have := congrArg List.length q.2.1
  simpa using this

theorem Tracking_inv {world : World} {n : Nat} {s s' : System} (hinv : TrackInv n true s)
    (hn : 2 ≤ n) (h : Tracking world s = .ok s') : TrackInv n false s' := by
  obtain ⟨p, c, hp, hcur, hpc, hplt⟩ := hinv.previous hn
  obtain ⟨hgc, hpcur⟩ := hinv.unprocessed rfl c hcur
  have q := Tracking_quiet h
  unfold Tracking at h
  rw [hp] at h
  cases hprev : s.deref (some p) with
  | none => simp [hprev] at h
  | some prev =>
    simp only [hprev] at h
    obtain ⟨s1, h1, h⟩ := Outcome.bind_eq_ok h
    have hflags := gflag_of_deref hprev
    have st1 : Quiet s s1 ∧ CountOK s1 ∧ s1.gflag c = false ∧ s1.pflag c = false ∧
        s1.pflag p = s.pflag p := by
      split at h1
      · rename_i hb
        have hg : s.gflag p = false := by rw [hflags.1]; simpa using hb
        have := ApplyGradient_counts hinv.counts hg h1
        refine ⟨ApplyGradient_quiet h1, this.1, ?_, ?_, this.2.2 p⟩
        · rw [this.2.1 c (fun hh => hpc hh.symm)]; exact hgc
        · rw [this.2.2 c]; exact hpcur
      · simp only [Outcome.ok.injEq] at h1
        subst h1
        exact ⟨Quiet.refl s, hinv.counts, hgc, hpcur, rfl⟩
    obtain ⟨q1, c1, g1, p1, pp1⟩ := st1
    rw [q1.fields.1, hp] at h
    cases hprev1 : s1.deref (some p) with
    | none => simp [hprev1] at h
    | some prev1 =>
      simp only [hprev1] at h
      obtain ⟨s2, h2, h⟩ := Outcome.bind_eq_ok h
      have hflags1 := gflag_of_deref hprev1
      have st2 : CountOK s2 ∧ s2.gflag c = false ∧ s2.pflag c = false := by
        split at h2
        · rename_i hb
          have hpf : s1.pflag p = false := by rw [hflags1.2]; simpa using hb
          have := ObtainAllPoints_counts c1 hpf h2
          refine ⟨this.1, ?_, ?_⟩
          · rw [this.2.2 c]; exact g1
          · rw [this.2.1 c (fun hh => hpc hh.symm)]; exact p1
        · simp only [Outcome.ok.injEq] at h2
          subst h2
          exact ⟨c1, g1, p1⟩
      obtain ⟨c2, g2, p2⟩ := st2
      have q2 : Quiet s s2 := by
        refine q1.trans ?_
        split at h2
        · exact ObtainAllPoints_quiet h2
        · simp only [Outcome.ok.injEq] at h2
          subst h2
          exact Quiet.refl _
      obtain ⟨s3, h3, h⟩ := Outcome.bind_eq_ok h
      rw [q2.fields.2, hcur] at h3
      have r3 := ApplyGradient_counts c2 g2 h3
      have q3 := ApplyGradient_quiet h3
      rw [q3.fields.2, q2.fields.2, hcur] at h
      have r4 := ObtainAllPoints_counts r3.1 (by rw [r3.2.2 c]; exact p2) h
      refine ⟨q.2.2 hinv.tracker, ?_, q.alive hinv.alive, r4.1, ?_, ?_, ?_⟩
      · rw [q.1]; exact hinv.num_frames
      · intro h1n
        obtain ⟨c', hc', hlt'⟩ := hinv.current h1n
        exact ⟨c', by rw [q.fields.2]; exact hc', by rw [q.heap_length]; exact hlt'⟩
      · intro _
        exact ⟨p, c, by rw [q.fields.1]; exact hp, by rw [q.fields.2]; exact hcur, hpc,
          by rw [q.heap_length]; exact hplt⟩
      · intro hf
        simp at hf


theorem AddFrame_inv {opts : Options} {world : World} {id : Int} {n : Nat} {fresh : Bool}
    {s s' : System} (hinv : TrackInv n fresh s) (h : AddFrame opts world id s = .ok s') :
    TrackInv (n + 1) true s' := by
  obtain ⟨path, image_, _, _, _, _, e⟩ := AddFrame_ok h
  have hheap : s'.heap = s.heap ++ [Obj.mk { Frame.new opts with idFrame_ := id, image_ := image_ }
      true] := by rw [e]
  have htr : s'.tracker_ = s.tracker_ := by rw [e]
  have hcur : s'.current_frame_ = some s.heap.length := by rw [e]
  have hgf : ∀ x, s'.gflag x = s.gflag x := by
    intro x
    simp only [System.gflag, hheap]
    by_cases hx : x < s.heap.length
    · rw [List.getElem?_append_left hx]
    · rw [List.getElem?_append_right (by omega), List.getElem?_eq_none (by omega : s.heap.length ≤ x)]
      by_cases hx0 : x - s.heap.length = 0
      · simp [hx0, Frame.new]
      · rw [List.getElem?_eq_none (by simp; omega)]
  have hpf : ∀ x, s'.pflag x = s.pflag x := by
    intro x
    simp only [System.pflag, hheap]
    by_cases hx : x < s.heap.length
    · rw [List.getElem?_append_left hx]
    · rw [List.getElem?_append_right (by omega), List.getElem?_eq_none (by omega : s.heap.length ≤ x)]
      by_cases hx0 : x - s.heap.length = 0
      · simp [hx0, Frame.new]
      · rw [List.getElem?_eq_none (by simp; omega)]
  have hnone : s.gflag s.heap.length = false ∧ s.pflag s.heap.length = false := by
    simp [System.gflag, System.pflag]
  refine ⟨by rw [htr]; exact hinv.tracker, ?_, ?_, ?_, ?_, ?_, ?_⟩
  · rw [e]
    simp only
    rw [hinv.num_frames]
    push_cast
    rfl
  · intro a o ho
    rw [hheap, List.getElem?_append] at ho
    split at ho
    · exact hinv.alive a o ho
    · by_cases hx0 : a - s.heap.length = 0
      · simp [hx0] at ho
        rw [← ho]
      · rw [List.getElem?_eq_none (by simp; omega)] at ho
        simp at ho
  · intro x
    have := hinv.counts x
    simp only [System.gradientCalls, System.pointsCalls, htr, hgf, hpf]
    exact this
  · intro _
    exact ⟨s.heap.length, hcur, by rw [hheap]; simp⟩
  · intro hn
    obtain ⟨c, hc, hlt⟩ := hinv.current (by omega)
    have hprev : s'.previous_frame_ = some c := by
      rw [e]
      simp only
      have : ¬ (s.num_frames_ == 0) = true := by
        rw [hinv.num_frames]
        simp
        omega
      rw [if_neg this, hc]
    exact ⟨c, s.heap.length, hprev, hcur, by omega, by rw [hheap]; simp; omega⟩
  · intro _ c hc
    rw [hcur] at hc
    simp only [Option.some.injEq] at hc
    subst hc
    rw [hgf, hpf]
    exact hnone

theorem trace_counts {opts : Options} {world : World} :
    ∀ (cs : List Call) (n : Nat) (fresh : Bool) (s : System), TrackInv n fresh s →
      trackingFollowsIngestion n fresh cs = true →
      ∀ st ∈ traceCalls opts world cs s, CountOK st := by
  intro cs
  induction cs with
  | nil =>
    intro n fresh s _ _ st hst
    simp [traceCalls] at hst
  | cons c cs ih =>
    intro n fresh s hinv hcs st hst
    simp only [traceCalls] at hst
    cases h1 : exec opts world c s with
    | ok s1 =>
      simp only [h1, List.mem_cons] at hst
      cases c with
      | AddFrame id =>
        simp only [trackingFollowsIngestion] at hcs
        have hinv1 := AddFrame_inv hinv h1
        rcases hst with rfl | hst
        · exact hinv1.counts
        · exact ih (n + 1) true s1 hinv1 hcs st hst
      | Tracking =>
        simp only [trackingFollowsIngestion, Bool.and_eq_true, decide_eq_true_eq] at hcs
        obtain ⟨⟨hfresh, hn⟩, hcs⟩ := hcs
        subst hfresh
        have hinv1 := Tracking_inv hinv hn h1
        rcases hst with rfl | hst
        · exact hinv1.counts
        · exact ih n false s1 hinv1 hcs st hst
      | InitializeSystem => simp [trackingFollowsIngestion] at hcs
      | AddKeyFrame id => simp [trackingFollowsIngestion] at hcs
      | UpdateMessages => simp [trackingFollowsIngestion] at hcs
      | FreeFrames => simp [trackingFollowsIngestion] at hcs
    | exit c s1 => simp [h1] at hst
    | threw => simp [h1] at hst
    | undefined => simp [h1] at hst

/-- C8 (amended): starting from an initialized system without frames, in every
sequence of `AddFrame` and `Tracking` calls in which each `Tracking` call comes
directly after an `AddFrame` call and at least two frames have been ingested
before it, gradient extraction and candidate selection have each been invoked
at most once on any frame, in every state the sequence passes through. -/
theorem gradients_and_candidates_once (opts : Options) (world : World) (s : System)
    (t : Tracker) (cs : List Call) (hheap : s.heap = []) (hnum : s.num_frames_ = 0)
    (htracker : s.tracker_ = some t) (hg : t.gradient_calls = []) (hp : t.points_calls = [])
    (hcs : trackingFollowsIngestion 0 false cs = true) :
    ∀ st ∈ traceCalls opts world cs s, ∀ a,
      st.gradientCalls a ≤ 1 ∧ st.pointsCalls a ≤ 1 := by
  have hinv : TrackInv 0 false s := by
    refine ⟨by simp [htracker], by simp [hnum], ?_, ?_, ?_, ?_, ?_⟩
    · intro a o ho
      simp [hheap] at ho
    · intro a
      simp [System.gradientCalls, System.pointsCalls, htracker, hg, hp, System.gflag,
        System.pflag, hheap]
    · intro h; omega
    · intro h; omega
    · intro h; simp at h
  intro st hst a
  have := trace_counts cs 0 false s hinv hcs st hst a
  constructor
  · rw [this.1]; split <;> omega
  · rw [this.2]; split <;> omega


/-- Counterexample for C8: on an initialized system, the sequence `AddFrame(0)`,
`Tracking()` invokes gradient extraction and candidate selection twice on
frame 0, which is both the previous and the current frame. -/
theorem Tracking_processes_first_frame_twice :
    runCalls exampleOptions exampleWorld [.AddFrame 0, .Tracking] (afterCalls [.InitializeSystem])
        = .ok (afterCalls [.InitializeSystem, .AddFrame 0, .Tracking]) ∧
      (afterCalls [.InitializeSystem, .AddFrame 0, .Tracking]).frames_ = [0] ∧
      (afterCalls [.InitializeSystem, .AddFrame 0, .Tracking]).gradientCalls 0 = 2 ∧
      (afterCalls [.InitializeSystem, .AddFrame 0, .Tracking]).pointsCalls 0 = 2 := by
  decide

/-- Witness for C8 (amended): three ingestions with tracking after the second
and the third, as in the loop of `main`; in the final state every frame has
been processed exactly once. -/
theorem gradients_and_candidates_once_witness :
    afterCalls [.InitializeSystem, .AddFrame 0, .AddFrame 1, .Tracking, .AddFrame 2, .Tracking]
        ∈ traceCalls exampleOptions exampleWorld
            [.AddFrame 0, .AddFrame 1, .Tracking, .AddFrame 2, .Tracking]
            (afterCalls [.InitializeSystem]) ∧
      ((afterCalls [.InitializeSystem, .AddFrame 0, .AddFrame 1, .Tracking, .AddFrame 2,
          .Tracking]).frames_.map
        (afterCalls [.InitializeSystem, .AddFrame 0, .AddFrame 1, .Tracking, .AddFrame 2,
          .Tracking]).gradientCalls) = [1, 1, 1] ∧
      ∀ a,
        (afterCalls [.InitializeSystem, .AddFrame 0, .AddFrame 1, .Tracking, .AddFrame 2,
          .Tracking]).gradientCalls a ≤ 1 ∧
        (afterCalls [.InitializeSystem, .AddFrame 0, .AddFrame 1, .Tracking, .AddFrame 2,
          .Tracking]).pointsCalls a ≤ 1 :=
  ⟨by decide, by decide,
    gradients_and_candidates_once exampleOptions exampleWorld (afterCalls [.InitializeSystem])
      { w := 640, h := 480, gradient_calls := [], points_calls := [] }
      [.AddFrame 0, .AddFrame 1, .Tracking, .AddFrame 2, .Tracking] rfl rfl rfl rfl rfl rfl
      _ (by decide)⟩


/-! ## Keyframes, eviction and the set-up check -/

/-- Whatever frame heads the window, `FreeFrames` runs its destructor and ends
its lifetime, and leaves `keyframes_` and `current_keyframe_` as they are: a
keyframe at the head of the window is destroyed while still referenced. -/
theorem FreeFrames_destroys_oldest {s s' : System} {a : Nat} {rest : List Nat}
    (hfr : s.frames_ = a :: rest) (h : FreeFrames s = .ok s') :
    s'.keyframes_ = s.keyframes_ ∧ s'.current_keyframe_ = s.current_keyframe_ ∧
      s'.deref (some a) = none ∧
      (s'.heap[a]?).map (fun o => o.val.image_) = some [] := by
  obtain ⟨a', rest', f, hfr', hf, rfl⟩ := FreeFrames_ok h
  rw [hfr] at hfr'
  simp only [List.cons.injEq] at hfr'
  obtain ⟨rfl, rfl⟩ := hfr'
  have hcell := deref_some hf
  have hlt : a < s.heap.length := by
    by_contra hc
    rw [List.getElem?_eq_none (by omega)] at hcell
    simp at hcell
  refine ⟨rfl, rfl, ?_, ?_⟩
  · simp [System.deref, List.getElem?_set, hlt]
  · simp [List.getElem?_set, hlt, Frame.destructor]

/-- The outcome of `Calibration` does not depend on the camera model that the
calibration file describes: two worlds that differ in it are treated alike. -/
theorem Calibration_blind_to_camera_model (world world' : World) (path : String)
    (s : System) :
    (∃ s1, Calibration world path s = .ok s1) ↔ (∃ s1, Calibration world' path s = .ok s1) := by
  unfold Calibration
  simp only
  by_cases h : (s.w_.tmod 16 != 0 || s.h_.tmod 16 != 0) = true
  · simp [h]
  · simp [h]

/-- C2: evaluation at the failing input.  In the example run of `main` the first
frame is the only keyframe; it is intact after 10 iterations, and the eviction
of the 11th iteration runs its destructor: `keyframes_` and `current_keyframe_`
still point to it, its lifetime has ended and its pyramid is empty.  The same
happens when `FreeFrames` is called right after the promotion. -/
theorem FreeFrames_destroys_the_keyframe :
    (main exampleOptions exampleWorld { w_ := 0, h_ := 0, w_input_ := 0, h_input_ := 0 }
        exampleArgs 10 = .ok (exampleRun 10) ∧
      (exampleRun 10).frames_.head? = some 0 ∧ (exampleRun 10).keyframes_ = [0] ∧
      (exampleRun 10).current_keyframe_ = some 0 ∧
      ((exampleRun 10).deref (some 0)).map (fun f => f.image_)
        = some [{ cols := 640, rows := 480 }, { cols := 320, rows := 240 },
                { cols := 160, rows := 120 }, { cols := 80, rows := 60 },
                { cols := 40, rows := 30 }] ∧
      main exampleOptions exampleWorld { w_ := 0, h_ := 0, w_input_ := 0, h_input_ := 0 }
        exampleArgs 11 = .ok (exampleRun 11) ∧
      (exampleRun 11).keyframes_ = [0] ∧ (exampleRun 11).current_keyframe_ = some 0 ∧
      (exampleRun 11).deref (some 0) = none ∧
      ((exampleRun 11).heap[0]?).map (fun o => (o.alive, o.val.image_, o.val.gradient_))
        = some (false, [], [])) ∧
    (runCalls exampleOptions exampleWorld
        [.InitializeSystem, .AddFrame 0, .AddKeyFrame 0, .FreeFrames] exampleEntry
        = .ok (afterCalls [.InitializeSystem, .AddFrame 0, .AddKeyFrame 0, .FreeFrames]) ∧
      (afterCalls [.InitializeSystem, .AddFrame 0, .AddKeyFrame 0, .FreeFrames]).keyframes_
        = [0] ∧
      (afterCalls [.InitializeSystem, .AddFrame 0, .AddKeyFrame 0, .FreeFrames]).deref (some 0)
        = none ∧
      ((afterCalls [.InitializeSystem, .AddFrame 0, .AddKeyFrame 0, .FreeFrames]).heap[0]?).map
        (fun o => o.val.image_) = some []) := by
  rw [main_example, main_example]
  decide

/-- Counterexample for C3: with only frame 0 in the window, `AddKeyFrame(5)` does
not return an error to its caller; it ends the process with `exit(0)`. -/
theorem AddKeyFrame_rejection_ends_the_process :
    runCalls exampleOptions exampleWorld [.InitializeSystem, .AddFrame 0] exampleEntry
        = .ok (afterCalls [.InitializeSystem, .AddFrame 0]) ∧
      ((afterCalls [.InitializeSystem, .AddFrame 0]).frames_.map fun a =>
        ((afterCalls [.InitializeSystem, .AddFrame 0]).deref (some a)).map fun f => f.idFrame_)
        = [some 0] ∧
      AddKeyFrame exampleOptions 5 (afterCalls [.InitializeSystem, .AddFrame 0])
        = .exit 0 (afterCalls [.InitializeSystem, .AddFrame 0]) ∧
      ¬ ∃ s', AddKeyFrame exampleOptions 5 (afterCalls [.InitializeSystem, .AddFrame 0])
        = .ok s' := by
  refine ⟨by decide, by decide, by decide, ?_⟩
  rintro ⟨s', h⟩
  rw [show AddKeyFrame exampleOptions 5 (afterCalls [.InitializeSystem, .AddFrame 0])
    = .exit 0 (afterCalls [.InitializeSystem, .AddFrame 0]) from by decide] at h
  simp at h

/-- C3 (amended): `AddKeyFrame(id)` is rejected for every id larger than the id
of the current frame; the rejection ends the process with `exit(0)`, and the
state at that moment is the state before the call, so `frames_`, `keyframes_`,
`num_keyframes_` and every `isKeyFrame_` flag are unchanged. -/
theorem AddKeyFrame_rejects_ids_above_current (opts : Options) (id : Int) (s : System)
    (cur : Frame) (hcur : s.deref s.current_frame_ = some cur) (hid : cur.idFrame_ < id) :
    AddKeyFrame opts id s = .exit 0 s := by
  have : id > cur.idFrame_ := hid
  simp [AddKeyFrame, hcur, this]

/-- Witness for C3 (amended): `AddKeyFrame(7)` with frames 0 and 1 ingested. -/
theorem AddKeyFrame_rejects_ids_above_current_witness :
    AddKeyFrame exampleOptions 7 (afterCalls [.InitializeSystem, .AddFrame 0, .AddFrame 1])
      = .exit 0 (afterCalls [.InitializeSystem, .AddFrame 0, .AddFrame 1]) :=
  AddKeyFrame_rejects_ids_above_current exampleOptions 7
    (afterCalls [.InitializeSystem, .AddFrame 0, .AddFrame 1]) _ (by rfl) (by decide)


/-- C10: evaluation at the failing inputs.  `AddKeyFrame` indexes `frames_` with
`num_frames_ - 1`, a count that `FreeFrames` does not lower, and never looks
`id` up.  After `AddFrame(0)`, `AddFrame(1)`, `FreeFrames()` the window has one
entry and `AddKeyFrame(1)` reads `frames_[1]`; after `AddFrame(0)`,
`AddFrame(1)` the call `AddKeyFrame(0)` is accepted and marks the frame with
id 1. -/
theorem AddKeyFrame_ignores_id_and_window :
    (runCalls exampleOptions exampleWorld
        [.InitializeSystem, .AddFrame 0, .AddFrame 1, .FreeFrames] exampleEntry
        = .ok (afterCalls [.InitializeSystem, .AddFrame 0, .AddFrame 1, .FreeFrames]) ∧
      (afterCalls [.InitializeSystem, .AddFrame 0, .AddFrame 1, .FreeFrames]).frames_.length = 1 ∧
      (afterCalls [.InitializeSystem, .AddFrame 0, .AddFrame 1, .FreeFrames]).num_frames_ = 2 ∧
      AddKeyFrame exampleOptions 1
        (afterCalls [.InitializeSystem, .AddFrame 0, .AddFrame 1, .FreeFrames]) = .undefined) ∧
    (runCalls exampleOptions exampleWorld
        [.InitializeSystem, .AddFrame 0, .AddFrame 1, .AddKeyFrame 0] exampleEntry
        = .ok (afterCalls [.InitializeSystem, .AddFrame 0, .AddFrame 1, .AddKeyFrame 0]) ∧
      ((afterCalls [.InitializeSystem, .AddFrame 0, .AddFrame 1, .AddKeyFrame 0]).deref
        (afterCalls [.InitializeSystem, .AddFrame 0, .AddFrame 1, .AddKeyFrame 0]).current_keyframe_).map
          (fun f => f.idFrame_) = some 1 ∧
      ((afterCalls [.InitializeSystem, .AddFrame 0, .AddFrame 1, .AddKeyFrame 0]).frames_.map
        fun a => ((afterCalls [.InitializeSystem, .AddFrame 0, .AddFrame 1, .AddKeyFrame 0]).deref
          (some a)).map fun f => (f.idFrame_, f.isKeyFrame_))
        = [some (0, false), some (1, true)]) := by
  decide


/-- C5: evaluation at the failing inputs.  `Calibration` tests `w_` and `h_`
before `InitializeSystem` has copied the output size of the camera model into
them.  With zero-filled storage a camera model of output size 17 x 17 passes
the set-up and a frame is ingested; with a 1 in the storage of `w_` a camera
model of output size 640 x 480 is refused. -/
theorem Calibration_tests_unset_dimensions :
    (oddCamera.output_width % 16 ≠ 0 ∧
      ∃ s, main exampleOptions oddWorld { w_ := 0, h_ := 0, w_input_ := 0, h_input_ := 0 }
          exampleArgs 1 = .ok s ∧
        s.initialized_ = true ∧ s.frames_.length = 1 ∧ s.w_ = 17 ∧ s.h_ = 17) ∧
    (exampleCamera.output_width % 16 = 0 ∧ exampleCamera.output_height % 16 = 0 ∧
      ∃ s, main exampleOptions exampleWorld { w_ := 1, h_ := 0, w_input_ := 0, h_input_ := 0 }
          exampleArgs 1 = .exit 0 s ∧ s.frames_ = []) := by
  refine ⟨⟨by decide, ?_⟩, by decide, by decide, ?_⟩
  · have hcal : Calibration oddWorld "calibration.xml"
        (System.new 0 { w_ := 0, h_ := 0, w_input_ := 0, h_input_ := 0 })
        = .ok { System.new 0 { w_ := 0, h_ := 0, w_input_ := 0, h_input_ := 0 } with
                camera_model_ := some oddCamera } := rfl
    simp only [main, exampleArgs, hcal, Outcome.bind_ok,
      AddListImages_example oddWorld _ rfl]
    exact ⟨_, rfl, by decide, by decide, by decide, by decide⟩
  · exact ⟨_, rfl, by decide⟩


end uw
